import Mathlib

set_option linter.unusedVariables false
set_option allowUnsafeReducibility true

attribute [semireducible] Rat.add Rat.sub Rat.mul Rat.inv Rat.ofScientific

instance {ε α : Type} [DecidableEq ε] [DecidableEq α] : DecidableEq (Except ε α) := fun a b =>
  match a, b with
  | .error x, .error y =>
    if h : x = y then isTrue (by rw [h]) else isFalse (fun hc => h (Except.error.inj hc))
  | .ok x, .ok y =>
    if h : x = y then isTrue (by rw [h]) else isFalse (fun hc => h (Except.ok.inj hc))
  | .error _, .ok _ => isFalse (fun hc => Except.noConfusion hc)
  | .ok _, .error _ => isFalse (fun hc => Except.noConfusion hc)

/-!
Shallow embedding of the pattern-detection engine of the stock-screener
repository (`candlestick_patterns.py`).  Prices and volumes are modelled as
rationals, indices as naturals, and Python exceptions (division by zero,
`max`/`min` of an empty sequence) as `Except Unit`.  Functions keep the
source's names and control flow.
-/

/-- Python division `a / b`: raises `ZeroDivisionError` when `b == 0`. -/
def pydiv (a b : ℚ) : Except Unit ℚ :=
  if b = 0 then .error () else .ok (a / b)

/-- Python `max` over a list: raises `ValueError` on an empty sequence. -/
def pymax : List ℚ → Except Unit ℚ
  | [] => .error ()
  | x :: xs => .ok (xs.foldl max x)

/-- Python `min` over a list: raises `ValueError` on an empty sequence. -/
def pymin : List ℚ → Except Unit ℚ
  | [] => .error ()
  | x :: xs => .ok (xs.foldl min x)

/-- Python slice `xs[a:b]` for non-negative bounds. -/
def pyslice (xs : List ℚ) (a b : ℕ) : List ℚ := (xs.take b).drop a

/-- Python `range(a, b)` (step 1). -/
def pyRange (a b : ℕ) : List ℕ := List.range' a (b - a)

/-- Python `range(a, b, -1)`: descending from `a` down to `b + 1`. -/
def pyRangeDown (a b : ℕ) : List ℕ := (List.range' (b + 1) (a - b)).reverse

/-- Python `round(q)` / `round(q, 0)`: nearest integer, ties to even. -/
def pyRound0 (q : ℚ) : ℤ :=
  if q - (⌊q⌋ : ℚ) < 1/2 then ⌊q⌋
  else if 1/2 < q - (⌊q⌋ : ℚ) then ⌊q⌋ + 1
  else if ⌊q⌋ % 2 = 0 then ⌊q⌋ else ⌊q⌋ + 1

/-- Python `round(q, 0)` as a rational (the engine stores rounded floats). -/
def pyRoundQ (q : ℚ) : ℚ := (pyRound0 q : ℚ)

/-- Python `round(q, 2)`: two decimal places, ties to even. -/
def pyRound2 (q : ℚ) : ℚ := (pyRound0 (q * 100) : ℚ) / 100

/-- Run a loop body over a list of indices, mirroring a Python
`for ...: continue / return` loop: stop at the first body that returns a
value, propagate the first raised exception, otherwise fall through. -/
def firstSomeE {α : Type} (f : ℕ → Except Unit (Option α)) : List ℕ → Except Unit (Option α)
  | [] => .ok none
  | i :: is =>
    match f i with
    | .error e => .error e
    | .ok (some a) => .ok (some a)
    | .ok none => firstSomeE f is

/-- Last `some` element of a list of options (the "last classifier that
fires wins" resolution of the scanner). -/
def lastSome? {α : Type} : List (Option α) → Option α
  | [] => none
  | o :: rest =>
    match lastSome? rest with
    | some x => some x
    | none => o

/-- True exactly when an `Except` computation did not raise. -/
def exceptOk {α : Type} : Except Unit α → Bool
  | .ok _ => true
  | .error _ => false

/-- A detected candlestick pattern before confirmation (`pattern`, `signal`,
`confidence` keys of the dicts returned by the classifiers). -/
structure CandlePattern where
  pattern : String
  signal : String
  confidence : ℚ
deriving DecidableEq, Repr

/-- A record of the 7-day scan output list. -/
structure ScanRecord where
  date : String
  days_ago : ℤ
  pattern : String
  signal : String
  confidence : ℚ
  status : String
deriving DecidableEq, Repr

/-- The cup-and-handle output record. -/
structure CupRecord where
  pattern : String
  signal : String
  handle_shape : String
  cup_start_date : Option String
  cup_end_date : Option String
  handle_start_date : Option String
  breakout_date : Option String
  rim_price : ℚ
  cup_bottom_price : ℚ
  handle_low : ℚ
  depth_percent : ℚ
  profit_target : ℚ
  risk_reward : ℚ
  status : String
  confidence : ℕ
  days_ago : ℤ
deriving DecidableEq, Repr

/-- Body size of a candle: `abs(close - open)`. -/
def calculate_body_size (open_price close_price : ℚ) : ℚ :=
  |close_price - open_price|

/-- Upper shadow: `high - max(open, close)`. -/
def calculate_upper_shadow (high open_price close_price : ℚ) : ℚ :=
  high - max open_price close_price

/-- Lower shadow: `min(open, close) - low`. -/
def calculate_lower_shadow (low open_price close_price : ℚ) : ℚ :=
  min open_price close_price - low

/-- Bullish candle: `close > open`. -/
def is_bullish_candle (open_price close_price : ℚ) : Prop :=
  close_price > open_price

instance (o c : ℚ) : Decidable (is_bullish_candle o c) :=
  inferInstanceAs (Decidable (c > o))

/-- Bearish candle: `close < open`. -/
def is_bearish_candle (open_price close_price : ℚ) : Prop :=
  close_price < open_price

instance (o c : ℚ) : Decidable (is_bearish_candle o c) :=
  inferInstanceAs (Decidable (c < o))

/-- Hammer classifier (`detect_hammer`). -/
def detect_hammer (idx : ℕ) (opens highs lows closes : List ℚ) (atr : Option ℚ) :
    Except Unit (Option CandlePattern) :=
  if opens.length ≤ idx then .ok none
  else
    let open_p := opens.getD idx 0
    let high := highs.getD idx 0
    let low := lows.getD idx 0
    let close := closes.getD idx 0
    let body := calculate_body_size open_p close
    let lower_shadow := calculate_lower_shadow low open_p close
    let upper_shadow := calculate_upper_shadow high open_p close
    let total_range := high - low
    if total_range = 0 ∨ atr = none ∨ atr = some 0 then .ok none
    else
      if 2 * body ≤ lower_shadow ∧ upper_shadow ≤ 0.1 * body ∧
          0.3 * atr.getD 0 ≤ body ∧ 0.7 ≤ (max open_p close - low) / total_range then
        match pydiv lower_shadow body with
        | .error e => .error e
        | .ok r =>
          .ok (some { pattern := "hammer", signal := "bullish",
                      confidence := pyRoundQ (min 95 (60 + r * 10)) })
      else .ok none

/-- Shooting Star classifier (`detect_shooting_star`). -/
def detect_shooting_star (idx : ℕ) (opens highs lows closes : List ℚ) (atr : Option ℚ) :
    Except Unit (Option CandlePattern) :=
  if opens.length ≤ idx then .ok none
  else
    let open_p := opens.getD idx 0
    let high := highs.getD idx 0
    let low := lows.getD idx 0
    let close := closes.getD idx 0
    let body := calculate_body_size open_p close
    let lower_shadow := calculate_lower_shadow low open_p close
    let upper_shadow := calculate_upper_shadow high open_p close
    let total_range := high - low
    if total_range = 0 ∨ atr = none ∨ atr = some 0 then .ok none
    else
      if 2 * body ≤ upper_shadow ∧ lower_shadow ≤ 0.1 * body ∧
          0.3 * atr.getD 0 ≤ body ∧ 0.7 ≤ (high - min open_p close) / total_range then
        match pydiv upper_shadow body with
        | .error e => .error e
        | .ok r =>
          .ok (some { pattern := "shooting_star", signal := "bearish",
                      confidence := pyRoundQ (min 95 (60 + r * 10)) })
      else .ok none

/-- Bullish Engulfing classifier (`detect_bullish_engulfing`). -/
def detect_bullish_engulfing (idx : ℕ) (opens highs lows closes volumes : List ℚ)
    (atr : Option ℚ) : Option CandlePattern :=
  if idx < 1 ∨ opens.length ≤ idx then none
  else
    let open1 := opens.getD (idx - 1) 0
    let close1 := closes.getD (idx - 1) 0
    let open2 := opens.getD idx 0
    let close2 := closes.getD idx 0
    if is_bearish_candle open1 close1 ∧ is_bullish_candle open2 close2 ∧
        open2 < close1 ∧ open1 < close2 then
      let volume_boost : ℚ :=
        if idx < volumes.length ∧ idx - 1 < volumes.length then
          if volumes.getD (idx - 1) 0 < volumes.getD idx 0 then 10 else 0
        else 0
      some { pattern := "bullish_engulfing", signal := "bullish",
             confidence := pyRoundQ (min 95 (70 + volume_boost)) }
    else none

/-- Bearish Engulfing classifier (`detect_bearish_engulfing`). -/
def detect_bearish_engulfing (idx : ℕ) (opens highs lows closes volumes : List ℚ)
    (atr : Option ℚ) : Option CandlePattern :=
  if idx < 1 ∨ opens.length ≤ idx then none
  else
    let open1 := opens.getD (idx - 1) 0
    let close1 := closes.getD (idx - 1) 0
    let open2 := opens.getD idx 0
    let close2 := closes.getD idx 0
    if is_bullish_candle open1 close1 ∧ is_bearish_candle open2 close2 ∧
        close1 < open2 ∧ close2 < open1 then
      let volume_boost : ℚ :=
        if idx < volumes.length ∧ idx - 1 < volumes.length then
          if volumes.getD (idx - 1) 0 < volumes.getD idx 0 then 10 else 0
        else 0
      some { pattern := "bearish_engulfing", signal := "bearish",
             confidence := pyRoundQ (min 95 (70 + volume_boost)) }
    else none

/-- Morning Star classifier (`detect_morning_star`). -/
def detect_morning_star (idx : ℕ) (opens highs lows closes : List ℚ) (atr : Option ℚ) :
    Option CandlePattern :=
  if idx < 2 ∨ opens.length ≤ idx then none
  else
    let open1 := opens.getD (idx - 2) 0
    let close1 := closes.getD (idx - 2) 0
    let body1 := calculate_body_size open1 close1
    let open2 := opens.getD (idx - 1) 0
    let close2 := closes.getD (idx - 1) 0
    let body2 := calculate_body_size open2 close2
    let open3 := opens.getD idx 0
    let close3 := closes.getD idx 0
    let body3 := calculate_body_size open3 close3
    if atr = none ∨ atr = some 0 then none
    else
      if is_bearish_candle open1 close1 ∧ 0.7 * atr.getD 0 < body1 ∧
          body2 < 0.3 * body1 ∧ max open2 close2 < close1 ∧
          is_bullish_candle open3 close3 ∧ 0.7 * atr.getD 0 < body3 ∧
          (open1 + close1) / 2 < close3 then
        some { pattern := "morning_star", signal := "bullish", confidence := pyRoundQ 75 }
      else none

/-- Evening Star classifier (`detect_evening_star`). -/
def detect_evening_star (idx : ℕ) (opens highs lows closes : List ℚ) (atr : Option ℚ) :
    Option CandlePattern :=
  if idx < 2 ∨ opens.length ≤ idx then none
  else
    let open1 := opens.getD (idx - 2) 0
    let close1 := closes.getD (idx - 2) 0
    let body1 := calculate_body_size open1 close1
    let open2 := opens.getD (idx - 1) 0
    let close2 := closes.getD (idx - 1) 0
    let body2 := calculate_body_size open2 close2
    let open3 := opens.getD idx 0
    let close3 := closes.getD idx 0
    let body3 := calculate_body_size open3 close3
    if atr = none ∨ atr = some 0 then none
    else
      if is_bullish_candle open1 close1 ∧ 0.7 * atr.getD 0 < body1 ∧
          body2 < 0.3 * body1 ∧ close1 < min open2 close2 ∧
          is_bearish_candle open3 close3 ∧ 0.7 * atr.getD 0 < body3 ∧
          close3 < (open1 + close1) / 2 then
        some { pattern := "evening_star", signal := "bearish", confidence := pyRoundQ 75 }
      else none

/-- Per-candle test of the Three White Soldiers loop body: the candle must be
bullish and must not be rejected by the upper-shadow/range test. -/
def soldierOK (opens highs lows closes : List ℚ) (i : ℕ) : Prop :=
  is_bullish_candle (opens.getD i 0) (closes.getD i 0) ∧
  ¬(0 < highs.getD i 0 - lows.getD i 0 ∧
    calculate_upper_shadow (highs.getD i 0) (opens.getD i 0) (closes.getD i 0) /
      (highs.getD i 0 - lows.getD i 0) > 0.2)

instance (o h l c : List ℚ) (i : ℕ) : Decidable (soldierOK o h l c i) := by
  unfold soldierOK
  infer_instance

/-- Per-candle test of the Three Black Crows loop body. -/
def crowOK (opens highs lows closes : List ℚ) (i : ℕ) : Prop :=
  is_bearish_candle (opens.getD i 0) (closes.getD i 0) ∧
  ¬(0 < highs.getD i 0 - lows.getD i 0 ∧
    calculate_lower_shadow (lows.getD i 0) (opens.getD i 0) (closes.getD i 0) /
      (highs.getD i 0 - lows.getD i 0) > 0.2)

instance (o h l c : List ℚ) (i : ℕ) : Decidable (crowOK o h l c i) := by
  unfold crowOK
  infer_instance

/-- Three White Soldiers classifier (`detect_three_white_soldiers`). -/
def detect_three_white_soldiers (idx : ℕ) (opens highs lows closes : List ℚ)
    (atr : Option ℚ) : Option CandlePattern :=
  if idx < 2 ∨ opens.length ≤ idx then none
  else if ¬ soldierOK opens highs lows closes (idx - 2) then none
  else if ¬ soldierOK opens highs lows closes (idx - 1) then none
  else if ¬ soldierOK opens highs lows closes idx then none
  else if opens.getD (idx - 1) 0 ≤ opens.getD (idx - 2) 0 ∨
      closes.getD (idx - 2) 0 ≤ opens.getD (idx - 1) 0 then none
  else if opens.getD idx 0 ≤ opens.getD (idx - 1) 0 ∨
      closes.getD (idx - 1) 0 ≤ opens.getD idx 0 then none
  else if ¬ (highs.getD (idx - 2) 0 < highs.getD (idx - 1) 0 ∧
      highs.getD (idx - 1) 0 < highs.getD idx 0) then none
  else some { pattern := "three_white_soldiers", signal := "bullish",
              confidence := pyRoundQ 80 }

/-- Three Black Crows classifier (`detect_three_black_crows`). -/
def detect_three_black_crows (idx : ℕ) (opens highs lows closes : List ℚ)
    (atr : Option ℚ) : Option CandlePattern :=
  if idx < 2 ∨ opens.length ≤ idx then none
  else if ¬ crowOK opens highs lows closes (idx - 2) then none
  else if ¬ crowOK opens highs lows closes (idx - 1) then none
  else if ¬ crowOK opens highs lows closes idx then none
  else if opens.getD (idx - 2) 0 ≤ opens.getD (idx - 1) 0 ∨
      opens.getD (idx - 1) 0 ≤ closes.getD (idx - 2) 0 then none
  else if opens.getD (idx - 1) 0 ≤ opens.getD idx 0 ∨
      opens.getD idx 0 ≤ closes.getD (idx - 1) 0 then none
  else if ¬ (lows.getD (idx - 1) 0 < lows.getD (idx - 2) 0 ∧
      lows.getD idx 0 < lows.getD (idx - 1) 0) then none
  else some { pattern := "three_black_crows", signal := "bearish",
              confidence := pyRoundQ 80 }

/-- Confirmation tracker (`check_confirmation`): bullish confirmed when the
next close exceeds the pattern high, bearish when it falls below the pattern
low, pending otherwise or when no next bar exists. -/
def check_confirmation (pattern_signal : String) (pattern_idx : ℕ)
    (highs lows closes : List ℚ) : String :=
  if closes.length - 1 ≤ pattern_idx then "pending"
  else
    let next_close := closes.getD (pattern_idx + 1) 0
    if pattern_signal = "bullish" then
      if highs.getD pattern_idx 0 < next_close then "confirmed" else "pending"
    else
      if next_close < lows.getD pattern_idx 0 then "confirmed" else "pending"

/-- Days in month `m` of year `y` (Gregorian calendar). -/
def monthLength (y m : ℕ) : ℕ :=
  if m = 2 then
    if y % 4 = 0 ∧ (y % 100 ≠ 0 ∨ y % 400 = 0) then 29 else 28
  else if m = 4 ∨ m = 6 ∨ m = 9 ∨ m = 11 then 30 else 31

/-- Value of a decimal digit character. -/
def digitVal (c : Char) : Option ℕ :=
  if c.isDigit then some (c.toNat - 48) else none

/-- Models `datetime.strptime(s, "%Y-%m-%d")` on ISO `YYYY-MM-DD` strings:
ten characters, digits in the year/month/day fields, dashes as separators,
and a calendar-valid year, month and day; `none` models a raised
`ValueError`. -/
def parseDate (s : String) : Option (ℕ × ℕ × ℕ) :=
  match s.data with
  | [y1, y2, y3, y4, s1, m1, m2, s2, d1, d2] =>
    match digitVal y1, digitVal y2, digitVal y3, digitVal y4,
        digitVal m1, digitVal m2, digitVal d1, digitVal d2 with
    | some a, some b, some c, some d, some e, some f, some g, some h =>
      if s1 = '-' ∧ s2 = '-' then
        let y := 1000 * a + 100 * b + 10 * c + d
        let m := 10 * e + f
        let dd := 10 * g + h
        if 1 ≤ y ∧ 1 ≤ m ∧ m ≤ 12 ∧ 1 ≤ dd ∧ dd ≤ monthLength y m then
          some (y, m, dd)
        else none
      else none
    | _, _, _, _, _, _, _, _ => none
  | _ => none

/-- Day number of a Gregorian date (days since 1970-01-01); the difference of
two day numbers models `(d2 - d1).days` on `datetime` values. -/
def daysFromCivil (y m d : ℕ) : ℤ :=
  let yy : ℤ := if m ≤ 2 then (y : ℤ) - 1 else (y : ℤ)
  let era : ℤ := yy / 400
  let yoe : ℤ := yy - era * 400
  let mp : ℤ := ((m : ℤ) + 9) % 12
  let doy : ℤ := (153 * mp + 2) / 5 + (d : ℤ) - 1
  let doe : ℤ := yoe * 365 + yoe / 4 - yoe / 100 + doy
  era * 146097 + doe - 719468

/-- Day-count distance from a pattern date to the last date of the series
(`calculate_days_ago`): floored at 0, and 0 when either date fails to
parse (the source wraps the computation in `try/except`). -/
def calculate_days_ago (pattern_date : String) (dates : List String) : ℤ :=
  if dates.isEmpty then 0
  else
    match parseDate pattern_date, parseDate (dates.getLastD "") with
    | some (py, pm, pd), some (ly, lm, ld) =>
      max 0 (daysFromCivil ly lm ld - daysFromCivil py pm pd)
    | _, _ => 0

/-- One index of the scanner loop: evaluate every applicable classifier in
source order, each firing classifier overwriting `detected`. -/
def scanDetectAt (idx : ℕ) (opens highs lows closes volumes : List ℚ)
    (atr : Option ℚ) : Except Unit (Option CandlePattern) :=
  match detect_hammer idx opens highs lows closes atr with
  | .error e => .error e
  | .ok hammer =>
    match detect_shooting_star idx opens highs lows closes atr with
    | .error e => .error e
    | .ok star =>
      let detected : Option CandlePattern := none
      let detected := match hammer with | some p => some p | none => detected
      let detected := match star with | some p => some p | none => detected
      let detected :=
        if 1 ≤ idx then
          let d := match detect_bullish_engulfing idx opens highs lows closes volumes atr with
            | some p => some p | none => detected
          let d := match detect_bearish_engulfing idx opens highs lows closes volumes atr with
            | some p => some p | none => d
          d
        else detected
      let detected :=
        if 2 ≤ idx then
          let d := match detect_morning_star idx opens highs lows closes atr with
            | some p => some p | none => detected
          let d := match detect_evening_star idx opens highs lows closes atr with
            | some p => some p | none => d
          let d := match detect_three_white_soldiers idx opens highs lows closes atr with
            | some p => some p | none => d
          let d := match detect_three_black_crows idx opens highs lows closes atr with
            | some p => some p | none => d
          d
        else detected
      .ok detected

/-- Insert a record into a list sorted ascending by date string. -/
def insertByDate (r : ScanRecord) : List ScanRecord → List ScanRecord
  | [] => [r]
  | x :: xs => if r.date < x.date then r :: x :: xs else x :: insertByDate r xs

/-- Sort records ascending by date string (models `patterns.sort(key=date)`). -/
def sortByDate : List ScanRecord → List ScanRecord
  | [] => []
  | x :: xs => insertByDate x (sortByDate xs)

/-- Main loop of `scan_patterns_last_7days` over the scanned indices. -/
def scanLoop (opens highs lows closes volumes : List ℚ) (atr : Option ℚ)
    (dates : List String) : List ℕ → Except Unit (List ScanRecord)
  | [] => .ok []
  | idx :: rest =>
    match scanDetectAt idx opens highs lows closes volumes atr with
    | .error e => .error e
    | .ok det =>
      match scanLoop opens highs lows closes volumes atr dates rest with
      | .error e => .error e
      | .ok tail =>
        match det with
        | none => .ok tail
        | some p =>
          let st := check_confirmation p.signal idx highs lows closes
          if st = "confirmed" ∨ st = "pending" then
            let pattern_date := if idx < dates.length then dates.getD idx "" else ""
            .ok ({ date := pattern_date,
                   days_ago := calculate_days_ago pattern_date dates,
                   pattern := p.pattern, signal := p.signal,
                   confidence := p.confidence, status := st } :: tail)
          else .ok tail

/-- Seven-day scanner (`scan_patterns_last_7days`): requires at least 8
candles, evaluates the classifiers over the last 7 indices, checks
confirmation, and returns the surviving records sorted by date. -/
def scan_patterns_last_7days (opens highs lows closes volumes : List ℚ)
    (atr : Option ℚ) (dates : List String) : Except Unit (List ScanRecord) :=
  if opens.length < 8 then .ok []
  else
    let start := opens.length - 7
    match scanLoop opens highs lows closes volumes atr dates
        (List.range' start (opens.length - start)) with
    | .error e => .error e
    | .ok pats => .ok (sortByDate pats)

/-- Depth gate of the cup search: the candidate is kept only when the depth
percentage is not below 12 and not above 35. -/
def depthGate (depth : ℚ) : Bool :=
  if depth < 12 ∨ depth > 35 then false else true

/-- Time-symmetry gate of the cup search: zero left duration is rejected,
the right/left duration ratio must lie within [0.5, 2.0], and a right
duration under 5 bars (V-shape) is rejected. -/
def symmetryGate (left_duration right_duration : ℕ) : Bool :=
  if left_duration = 0 then false
  else if (right_duration : ℚ) / (left_duration : ℚ) < 0.5 ∨
      (right_duration : ℚ) / (left_duration : ℚ) > 2.0 then false
  else if right_duration < 5 then false
  else true

/-- Rim-violation test: some high strictly between the left rim and the right
rim (inclusive) exceeds the left rim price by more than 2%. -/
def rimViolation (highs : List ℚ) (left_rim_price : ℚ) (l rr : ℕ) : Bool :=
  (List.range' (l + 1) (rr + 1 - (l + 1))).any fun i =>
    decide (highs.getD i 0 > left_rim_price * 1.02)

/-- Right-rim search loop: track the index whose high deviates least from the
left rim price among those within the 3% tolerance. -/
def findRightRimAux (highs : List ℚ) (left_rim_price : ℚ) :
    List ℕ → Option (ℕ × ℚ) → Option ℚ → Except Unit (Option (ℕ × ℚ))
  | [], best, _ => .ok best
  | i :: is, best, bd =>
    match pydiv |highs.getD i 0 - left_rim_price| left_rim_price with
    | .error e => .error e
    | .ok diff =>
      if diff ≤ 0.03 then
        match bd with
        | none => findRightRimAux highs left_rim_price is (some (i, highs.getD i 0)) (some diff)
        | some q =>
          if diff < q then
            findRightRimAux highs left_rim_price is (some (i, highs.getD i 0)) (some diff)
          else findRightRimAux highs left_rim_price is best bd
      else findRightRimAux highs left_rim_price is best bd

/-- Right-rim search over `range(lo, hi)`. -/
def findRightRim (highs : List ℚ) (left_rim_price : ℚ) (lo hi : ℕ) :
    Except Unit (Option (ℕ × ℚ)) :=
  findRightRimAux highs left_rim_price (List.range' lo (hi - lo)) none none

/-- First index of the minimum of a list (Python `min` + `list.index`). -/
def firstMinIdxAux : List ℚ → ℕ → ℕ → ℚ → ℕ × ℚ
  | [], _, bi, bv => (bi, bv)
  | x :: xs, i, bi, bv =>
    if x < bv then firstMinIdxAux xs (i + 1) i x
    else firstMinIdxAux xs (i + 1) bi bv

/-- First index of the minimum of a list, `none` on an empty list. -/
def firstMinIdx : List ℚ → Option (ℕ × ℚ)
  | [] => none
  | x :: xs => some (firstMinIdxAux xs 1 0 x)

/-- Downward-drift handle shape (`detect_handle_downward_drift`): at least
60% of consecutive bars show a lower high or at least 60% show a lower low. -/
def detect_handle_downward_drift (highs lows closes : List ℚ)
    (handle_start_idx handle_end_idx : ℕ) (cup_bottom_price cup_rim_price : ℚ) :
    Option String :=
  if handle_end_idx - handle_start_idx < 5 then none
  else
    let idxs := List.range' (handle_start_idx + 1) (handle_end_idx - (handle_start_idx + 1))
    let lower_highs := (idxs.filter fun i =>
      decide (highs.getD i 0 < highs.getD (i - 1) 0)).length
    let lower_lows := (idxs.filter fun i =>
      decide (lows.getD i 0 < lows.getD (i - 1) 0)).length
    let total_periods : ℚ := ((handle_end_idx - handle_start_idx - 1 : ℕ) : ℚ)
    if 0.6 ≤ (lower_highs : ℚ) / total_periods ∨ 0.6 ≤ (lower_lows : ℚ) / total_periods then
      some "drift"
    else none

/-- Flag handle shape (`detect_handle_flag`): highs and lows stay within a
parallel channel (mean absolute deviation under 30% of the channel width). -/
def detect_handle_flag (highs lows closes : List ℚ)
    (handle_start_idx handle_end_idx : ℕ) (cup_bottom_price cup_rim_price : ℚ) :
    Except Unit (Option String) :=
  if handle_end_idx - handle_start_idx < 5 then .ok none
  else
    let handle_highs := pyslice highs handle_start_idx handle_end_idx
    let handle_lows := pyslice lows handle_start_idx handle_end_idx
    match pydiv handle_highs.sum (handle_highs.length : ℚ) with
    | .error e => .error e
    | .ok avg_high =>
      match pydiv handle_lows.sum (handle_lows.length : ℚ) with
      | .error e => .error e
      | .ok avg_low =>
        match pydiv ((handle_highs.map fun h => |h - avg_high|).sum) (handle_highs.length : ℚ) with
        | .error e => .error e
        | .ok high_variance =>
          match pydiv ((handle_lows.map fun l => |l - avg_low|).sum) (handle_lows.length : ℚ) with
          | .error e => .error e
          | .ok low_variance =>
            let channel_width := avg_high - avg_low
            if high_variance < 0.3 * channel_width ∧ low_variance < 0.3 * channel_width ∧
                0 < channel_width then
              .ok (some "flag")
            else .ok none

/-- Pennant handle shape (`detect_handle_pennant`): the second half of the
handle window has a range under 70% of the first half's range. -/
def detect_handle_pennant (highs lows closes : List ℚ)
    (handle_start_idx handle_end_idx : ℕ) (cup_bottom_price cup_rim_price : ℚ) :
    Except Unit (Option String) :=
  if handle_end_idx - handle_start_idx < 5 then .ok none
  else
    let mid_idx := (handle_start_idx + handle_end_idx) / 2
    match pymax (pyslice highs handle_start_idx mid_idx),
        pymin (pyslice lows handle_start_idx mid_idx),
        pymax (pyslice highs mid_idx handle_end_idx),
        pymin (pyslice lows mid_idx handle_end_idx) with
    | .ok fh, .ok fl, .ok sh, .ok sl =>
      let first_half_range := fh - fl
      let second_half_range := sh - sl
      if first_half_range = 0 then .ok none
      else if second_half_range < first_half_range * 0.7 then .ok (some "pennant")
      else .ok none
    | .error e, _, _, _ => .error e
    | _, .error e, _, _ => .error e
    | _, _, .error e, _ => .error e
    | _, _, _, .error e => .error e

/-- Handle shape dispatch (`detect_handle_shape`): drift, then flag, then
pennant; first match wins. -/
def detect_handle_shape (highs lows closes : List ℚ)
    (handle_start_idx handle_end_idx : ℕ) (cup_bottom_price cup_rim_price : ℚ) :
    Except Unit (Option String) :=
  match detect_handle_downward_drift highs lows closes handle_start_idx handle_end_idx
      cup_bottom_price cup_rim_price with
  | some s => .ok (some s)
  | none =>
    match detect_handle_flag highs lows closes handle_start_idx handle_end_idx
        cup_bottom_price cup_rim_price with
    | .error e => .error e
    | .ok (some s) => .ok (some s)
    | .ok none =>
      detect_handle_pennant highs lows closes handle_start_idx handle_end_idx
        cup_bottom_price cup_rim_price

/-- Handle position validation (`validate_handle_position`): the handle low
stays above the cup bottom, in the upper half of the cup's range, and the
decline from the handle start close is at most 15%. -/
def validate_handle_position (handle_start_idx handle_end_idx : ℕ)
    (highs lows closes : List ℚ) (cup_bottom_price cup_rim_price : ℚ) :
    Except Unit Bool :=
  match pymin (pyslice lows handle_start_idx handle_end_idx) with
  | .error e => .error e
  | .ok handle_low =>
    let handle_start_price := closes.getD handle_start_idx 0
    if handle_low ≤ cup_bottom_price then .ok false
    else if handle_low - cup_bottom_price < (cup_rim_price - cup_bottom_price) * 0.5 then
      .ok false
    else
      match pydiv (handle_start_price - handle_low) handle_start_price with
      | .error e => .error e
      | .ok q => if q * 100 > 15 then .ok false else .ok true

/-- Volume validation (`validate_volume_requirements`): handle average volume
at most 70% of the cup average, and (when a breakout index is supplied) the
breakout volume at least 1.5 times the handle average. -/
def validate_volume_requirements (volumes : List ℚ)
    (cup_start_idx cup_end_idx handle_start_idx handle_end_idx : ℕ)
    (breakout_idx : Option ℕ) : Bool :=
  if volumes.isEmpty then false
  else
    let cup_volumes := pyslice volumes cup_start_idx cup_end_idx
    if cup_volumes.isEmpty then false
    else
      let cup_avg_volume := cup_volumes.sum / (cup_volumes.length : ℚ)
      let handle_volumes := pyslice volumes handle_start_idx handle_end_idx
      if handle_volumes.isEmpty then false
      else
        let handle_avg_volume := handle_volumes.sum / (handle_volumes.length : ℚ)
        if handle_avg_volume > cup_avg_volume * 0.7 then false
        else
          match breakout_idx with
          | some i =>
            if volumes.getD i 0 < handle_avg_volume * 1.5 then false else true
          | none => true

/-- Breakout search of the cup detector: from the handle end forward, the
first bar whose close is at least 1% above the handle resistance and whose
volume passes the breakout-volume validation. -/
def findBreakout (closes volumes : List ℚ)
    (cup_start_idx cup_end_idx handle_start_idx handle_end_idx : ℕ)
    (handle_resistance : ℚ) (n : ℕ) : Option ℕ :=
  (List.range' handle_end_idx (n - handle_end_idx)).find? fun i =>
    if closes.getD i 0 ≥ handle_resistance * 1.01 then
      validate_volume_requirements volumes cup_start_idx cup_end_idx
        handle_start_idx handle_end_idx (some i)
    else false

/-- Body of the handle-length loop of `detect_cup_and_handle` for one handle
end index: position check, shape classification, volume validation, breakout
search, recency filter, and record construction. -/
def handleLoopBody (highs lows closes volumes : List ℚ) (dates : List String)
    (left_rim_idx right_rim_idx : ℕ) (left_rim_price cup_bottom_price depth_percent : ℚ)
    (handle_end_idx : ℕ) : Except Unit (Option CupRecord) :=
  let handle_start_idx := right_rim_idx
  match validate_handle_position handle_start_idx handle_end_idx highs lows closes
      cup_bottom_price left_rim_price with
  | .error e => .error e
  | .ok false => .ok none
  | .ok true =>
    match detect_handle_shape highs lows closes handle_start_idx handle_end_idx
        cup_bottom_price left_rim_price with
    | .error e => .error e
    | .ok none => .ok none
    | .ok (some handle_shape) =>
      if validate_volume_requirements volumes left_rim_idx right_rim_idx
          handle_start_idx handle_end_idx none = false then .ok none
      else
        match pymax (pyslice highs handle_start_idx handle_end_idx),
            pymin (pyslice lows handle_start_idx handle_end_idx) with
        | .error e, _ => .error e
        | _, .error e => .error e
        | .ok handle_resistance, .ok handle_low =>
          let n := closes.length
          let recent_cutoff_idx := n - 7
          let breakout_idx := findBreakout closes volumes left_rim_idx right_rim_idx
            handle_start_idx handle_end_idx handle_resistance n
          let breakout_date : Option String :=
            match breakout_idx with
            | some i => if i < dates.length then some (dates.getD i "") else none
            | none => none
          let bk_truthy : Bool :=
            match breakout_idx with
            | some i => decide (i ≠ 0)
            | none => false
          let st : Option (String × ℤ) :=
            if bk_truthy ∧ recent_cutoff_idx ≤ breakout_idx.getD 0 then
              some ("confirmed", (n : ℤ) - 1 - (breakout_idx.getD 0 : ℤ))
            else if recent_cutoff_idx ≤ handle_end_idx ∧ bk_truthy = false then
              some ("forming", (n : ℤ) - 1 - (handle_end_idx : ℤ))
            else none
          match st with
          | none => .ok none
          | some (status, days_ago) =>
            let confidence : ℕ :=
              if handle_shape = "drift" then 87
              else if handle_shape = "flag" then 82
              else if handle_shape = "pennant" then 77
              else 75
            let rim_price := left_rim_price
            let profit_target := rim_price + rim_price * (depth_percent / 100)
            let risk := rim_price - handle_low
            let reward := profit_target - rim_price
            let risk_reward := if 0 < risk then reward / risk else 0
            .ok (some {
              pattern := "cup_and_handle", signal := "bullish",
              handle_shape := handle_shape,
              cup_start_date :=
                if left_rim_idx < dates.length then some (dates.getD left_rim_idx "") else none,
              cup_end_date :=
                if right_rim_idx < dates.length then some (dates.getD right_rim_idx "") else none,
              handle_start_date :=
                if handle_start_idx < dates.length then some (dates.getD handle_start_idx "") else none,
              breakout_date := breakout_date,
              rim_price := pyRound2 rim_price,
              cup_bottom_price := pyRound2 cup_bottom_price,
              handle_low := pyRound2 handle_low,
              depth_percent := pyRound2 depth_percent,
              profit_target := pyRound2 profit_target,
              risk_reward := pyRound2 risk_reward,
              status := status, confidence := confidence, days_ago := days_ago })

/-- Body of the bottom-search loop of `detect_cup_and_handle` for one
`bottom_search_end`: locate the bottom, validate depth, find the right rim,
check rim violations and time symmetry, then run the handle-length loop. -/
def bottomSearchBody (highs lows closes volumes : List ℚ) (dates : List String)
    (left_rim_idx : ℕ) (left_rim_price : ℚ) (bottom_search_end : ℕ) :
    Except Unit (Option CupRecord) :=
  let bottom_segment := pyslice lows left_rim_idx bottom_search_end
  if bottom_segment.isEmpty then .ok none
  else
    match firstMinIdx bottom_segment with
    | none => .ok none
    | some (off, cup_bottom_price) =>
      let cup_bottom_idx := left_rim_idx + off
      match pydiv (left_rim_price - cup_bottom_price) left_rim_price with
      | .error e => .error e
      | .ok d0 =>
        let depth_percent := d0 * 100
        if depthGate depth_percent = false then .ok none
        else if highs.length - 10 ≤ cup_bottom_idx then .ok none
        else
          let search_end := min (min (cup_bottom_idx + (cup_bottom_idx - left_rim_idx) * 3)
            (left_rim_idx + 300)) (highs.length - 5)
          match findRightRim highs left_rim_price (cup_bottom_idx + 5) search_end with
          | .error e => .error e
          | .ok none => .ok none
          | .ok (some (right_rim_idx, _right_rim_price)) =>
            if rimViolation highs left_rim_price left_rim_idx right_rim_idx then .ok none
            else if symmetryGate (cup_bottom_idx - left_rim_idx)
                (right_rim_idx - cup_bottom_idx) = false then .ok none
            else
              let handle_search_end := min (right_rim_idx + 25) closes.length
              firstSomeE
                (handleLoopBody highs lows closes volumes dates left_rim_idx right_rim_idx
                  left_rim_price cup_bottom_price depth_percent)
                (List.range' (right_rim_idx + 5) (handle_search_end + 1 - (right_rim_idx + 5)))

/-- Body of the left-rim loop of `detect_cup_and_handle` for one candidate
left-rim index: the candidate must be the maximum high of the 11-bar centered
window, then the bottom-search loop runs. -/
def leftRimBody (highs lows closes volumes : List ℚ) (dates : List String)
    (left_rim_idx : ℕ) : Except Unit (Option CupRecord) :=
  let window_start := left_rim_idx - 5
  let window_end := min highs.length (left_rim_idx + 6)
  match pymax (pyslice highs window_start window_end) with
  | .error e => .error e
  | .ok m =>
    if highs.getD left_rim_idx 0 ≠ m then .ok none
    else
      let left_rim_price := highs.getD left_rim_idx 0
      firstSomeE
        (bottomSearchBody highs lows closes volumes dates left_rim_idx left_rim_price)
        (List.range' (left_rim_idx + 30)
          (min (left_rim_idx + 301) (lows.length - 5) - (left_rim_idx + 30)))

/-- Cup-and-handle detector (`detect_cup_and_handle`): stateless search over
left-rim candidates from `len - 35` downward, returning the first structurally
valid and recent cup + handle as a record, `none` when no candidate wins. -/
def detect_cup_and_handle (opens highs lows closes volumes : List ℚ)
    (dates : List String) : Except Unit (Option CupRecord) :=
  if closes.length < 35 then .ok none
  else
    let max_lookback := min 300 (closes.length - 35)
    firstSomeE (leftRimBody highs lows closes volumes dates)
      (pyRangeDown (closes.length - 35) (closes.length - max_lookback - 1))

/-- Projection of a detector result onto the record's `days_ago` field. -/
def cupDaysAgo : Except Unit (Option CupRecord) → Option ℤ
  | .ok (some r) => some r.days_ago
  | _ => none

/-- Projection of a detector result onto the record's `status` field. -/
def cupStatus : Except Unit (Option CupRecord) → Option String
  | .ok (some r) => some r.status
  | _ => none

/-- A 71-bar series whose cup (left rim at index 35, bottom at 50, right rim
at 65) carries a handle whose volume gate only passes when the handle window
extends one bar past the last index. -/
def cupHighsA : List ℚ :=
  List.replicate 35 90 ++ [100] ++ List.replicate 29 90 ++ [100, 99, 98, 97, 96, 95]

/-- Lows of the 71-bar series: unique cup bottom 80 at index 50. -/
def cupLowsA : List ℚ :=
  List.replicate 50 85 ++ [80] ++ List.replicate 14 85 ++ [95, 94.8, 94.6, 94.4, 94.2, 94]

/-- Closes of the 71-bar series. -/
def cupClosesA : List ℚ :=
  List.replicate 65 88 ++ [98] ++ List.replicate 5 97

/-- Volumes of the 71-bar series: the 6-bar handle window averages below 70%
of the cup volume only once the final zero-volume bar is included. -/
def cupVolumesA : List ℚ :=
  List.replicate 65 1000 ++ List.replicate 5 800 ++ [0]

/-- The record the cup-and-handle detector returns on the 71-bar series: a
forming cup and handle whose `days_ago` is −1. -/
def cupRecA : CupRecord :=
  { pattern := "cup_and_handle", signal := "bullish", handle_shape := "drift",
    cup_start_date := none, cup_end_date := none, handle_start_date := none,
    breakout_date := none, rim_price := 100, cup_bottom_price := 80,
    handle_low := 94, depth_percent := 20, profit_target := 120,
    risk_reward := 333/100, status := "forming", confidence := 87, days_ago := -1 }

/-- Any integer below a rational is below its Python rounding. -/
theorem le_pyRound0 (n : ℤ) (q : ℚ) (h : (n : ℚ) ≤ q) : n ≤ pyRound0 q := by
  unfold pyRound0
  have hf : n ≤ ⌊q⌋ := Int.le_floor.mpr h
  split
  · exact hf
  · split
    · omega
    · split
      · exact hf
      · omega

/-- Any integer above a rational is above its Python rounding. -/
theorem pyRound0_le (n : ℤ) (q : ℚ) (h : q ≤ (n : ℚ)) : pyRound0 q ≤ n := by
  unfold pyRound0
  have hf : ⌊q⌋ ≤ n := by
    have h2 : ⌊q⌋ ≤ ⌊(n : ℚ)⌋ := Int.floor_le_floor h
    simpa using h2
  have hkey : ¬(q - (⌊q⌋ : ℚ) < 1 / 2) → ⌊q⌋ + 1 ≤ n := by
    intro hge
    have h1 : (⌊q⌋ : ℚ) + 1 / 2 ≤ q := by linarith
    have h2 : (⌊q⌋ : ℚ) < (n : ℚ) := by linarith
    exact_mod_cast h2
  split
  · exact hf
  · split
    · exact hkey (by assumption)
    · split
      · exact hf
      · exact hkey (by assumption)

/-- C1: `check_confirmation` returns `pending` when the pattern index is the
last index of the series; otherwise it returns `confirmed` for a bullish
signal iff the next close exceeds the pattern high, `confirmed` for a bearish
signal iff the next close is below the pattern low, and `pending` in every
other case. -/
theorem c1_check_confirmation (signal : String) (highs lows closes : List ℚ) (idx : ℕ)
    (hsig : signal = "bullish" ∨ signal = "bearish") (hidx : idx < closes.length) :
    (idx = closes.length - 1 →
      check_confirmation signal idx highs lows closes = "pending") ∧
    (idx + 1 < closes.length →
      (signal = "bullish" →
        (check_confirmation signal idx highs lows closes = "confirmed" ↔
          highs.getD idx 0 < closes.getD (idx + 1) 0)) ∧
      (signal = "bearish" →
        (check_confirmation signal idx highs lows closes = "confirmed" ↔
          closes.getD (idx + 1) 0 < lows.getD idx 0)) ∧
      (check_confirmation signal idx highs lows closes = "confirmed" ∨
        check_confirmation signal idx highs lows closes = "pending")) := by
  constructor
  · intro h
    unfold check_confirmation
    rw [if_pos (by omega)]
  · intro h2
    unfold check_confirmation
    rw [if_neg (by omega)]
    refine ⟨?_, ?_, ?_⟩
    · intro hb
      rw [if_pos hb]
      constructor
      · intro hc
        by_contra hlt
        rw [if_neg hlt] at hc
        exact absurd hc (by decide)
      · intro hlt
        rw [if_pos hlt]
    · intro hb
      have hnb : ¬(signal = "bullish") := by rw [hb]; decide
      rw [if_neg hnb]
      constructor
      · intro hc
        by_contra hlt
        rw [if_neg hlt] at hc
        exact absurd hc (by decide)
      · intro hlt
        rw [if_pos hlt]
    · rcases hsig with hb | hb
      · rw [if_pos hb]
        split
        · left; rfl
        · right; rfl
      · rw [if_neg (by rw [hb]; decide)]
        split
        · left; rfl
        · right; rfl

/-- Witness for C1 at the spec's concrete instance: bullish pattern at index
0 with high 110, next close 111 confirmed; next close 105 pending; last index
pending. -/
theorem c1_check_confirmation_witness :
    (("bullish" = "bullish" ∨ ("bullish" : String) = "bearish") ∧ 0 < 2) ∧
    check_confirmation "bullish" 0 [110, 110] [100, 100] [105, 111] = "confirmed" ∧
    check_confirmation "bullish" 0 [110, 110] [100, 100] [105, 105] = "pending" ∧
    check_confirmation "bullish" 1 [110, 110] [100, 100] [105, 111] = "pending" := by
  refine ⟨⟨Or.inl rfl, by decide⟩, ?_, ?_, ?_⟩
  · exact ((c1_check_confirmation "bullish" [110, 110] [100, 100] [105, 111] 0
      (Or.inl rfl) (by decide)).2 (by decide)).1 rfl |>.mpr (by decide)
  · have h := ((c1_check_confirmation "bullish" [110, 110] [100, 100] [105, 105] 0
      (Or.inl rfl) (by decide)).2 (by decide))
    rcases h.2.2 with hc | hp
    · exact absurd ((h.1 rfl).mp hc) (by decide)
    · exact hp
  · exact (c1_check_confirmation "bullish" [110, 110] [100, 100] [105, 111] 1
      (Or.inl rfl) (by decide)).1 (by decide)

/-- C6: for a candle with zero total range (high equal to low, under the
assumed OHLC invariant) at the evaluated index, the four range-dividing
classifiers return nothing. -/
theorem c6_zero_range (idx : ℕ) (opens highs lows closes : List ℚ) (atr : Option ℚ)
    (hzero : highs.getD idx 0 = lows.getD idx 0)
    (hlo : lows.getD idx 0 ≤ min (opens.getD idx 0) (closes.getD idx 0))
    (hhi : max (opens.getD idx 0) (closes.getD idx 0) ≤ highs.getD idx 0) :
    detect_hammer idx opens highs lows closes atr = .ok none ∧
    detect_shooting_star idx opens highs lows closes atr = .ok none ∧
    detect_three_white_soldiers idx opens highs lows closes atr = none ∧
    detect_three_black_crows idx opens highs lows closes atr = none := by
  have hoc : opens.getD idx 0 = closes.getD idx 0 := by
    have h1 : max (opens.getD idx 0) (closes.getD idx 0) ≤
        min (opens.getD idx 0) (closes.getD idx 0) := by
      calc max (opens.getD idx 0) (closes.getD idx 0) ≤ highs.getD idx 0 := hhi
        _ = lows.getD idx 0 := hzero
        _ ≤ min (opens.getD idx 0) (closes.getD idx 0) := hlo
    have h2 : opens.getD idx 0 ≤ closes.getD idx 0 :=
      le_trans (le_trans (le_max_left _ _) h1) (min_le_right _ _)
    have h3 : closes.getD idx 0 ≤ opens.getD idx 0 :=
      le_trans (le_trans (le_max_right _ _) h1) (min_le_left _ _)
    exact le_antisymm h2 h3
  have hrange : highs.getD idx 0 - lows.getD idx 0 = 0 := by
    rw [hzero]; ring
  refine ⟨?_, ?_, ?_, ?_⟩
  · unfold detect_hammer
    split
    · rfl
    · rw [if_pos (Or.inl hrange)]
  · unfold detect_shooting_star
    split
    · rfl
    · rw [if_pos (Or.inl hrange)]
  · have hnok : ¬ soldierOK opens highs lows closes idx := by
      intro hok
      have := hok.1
      unfold is_bullish_candle at this
      rw [hoc] at this
      exact lt_irrefl _ this
    unfold detect_three_white_soldiers
    rw [if_pos hnok]
    simp
  · have hnok : ¬ crowOK opens highs lows closes idx := by
      intro hok
      have := hok.1
      unfold is_bearish_candle at this
      rw [hoc] at this
      exact lt_irrefl _ this
    unfold detect_three_black_crows
    rw [if_pos hnok]
    simp

/-- Witness for C6 at a concrete zero-range candle (all prices 50). -/
theorem c6_zero_range_witness :
    (([50, 50, 50] : List ℚ).getD 2 0 = ([50, 50, 50] : List ℚ).getD 2 0) ∧
    detect_hammer 2 [50, 50, 50] [50, 50, 50] [50, 50, 50] [50, 50, 50] (some 1) = .ok none ∧
    detect_three_white_soldiers 2 [50, 50, 50] [50, 50, 50] [50, 50, 50] [50, 50, 50]
      (some 1) = none := by
  have h := c6_zero_range 2 [50, 50, 50] [50, 50, 50] [50, 50, 50] [50, 50, 50] (some 1)
    (by decide) (by decide) (by decide)
  exact ⟨rfl, h.1, h.2.2.1⟩

/-- C3 counterexample: at the spec's own Hammer instance (open 100, close
102, high 102.2, low 94, ATR 5) the lower shadow is 6 (not 8), so the
detected confidence is `min(95, 60 + (6/2)*10) = 90`, not 95; and with the
claimed precondition weakened only to "non-zero ATR", a zero-body candle at
ATR −1 passes every geometric criterion yet raises `ZeroDivisionError`
instead of returning a pattern. -/
theorem c3_hammer_cex :
    detect_hammer 0 [100] [102.2] [94] [102] (some 5) =
      .ok (some { pattern := "hammer", signal := "bullish", confidence := 90 }) ∧
    detect_hammer 0 [100] [100] [90] [100] (some (-1)) = .error () := by
  constructor
  · decide
  · decide

/-- C3 (amended): for every candle at a valid index with non-zero total range
and positive ATR, `detect_hammer` returns a bullish hammer with confidence
`round(min(95, 60 + (lowerShadow/body) * 10))` exactly when the four geometric
criteria hold, and returns nothing when any criterion fails; at the spec's
instance the confidence is 90. -/
theorem c3_hammer_formula (idx : ℕ) (opens highs lows closes : List ℚ) (a : ℚ)
    (hidx : idx < opens.length) (ha : 0 < a)
    (hrange : highs.getD idx 0 - lows.getD idx 0 ≠ 0) :
    detect_hammer idx opens highs lows closes (some a) =
      .ok (if 2 * calculate_body_size (opens.getD idx 0) (closes.getD idx 0) ≤
              calculate_lower_shadow (lows.getD idx 0) (opens.getD idx 0) (closes.getD idx 0) ∧
            calculate_upper_shadow (highs.getD idx 0) (opens.getD idx 0) (closes.getD idx 0) ≤
              0.1 * calculate_body_size (opens.getD idx 0) (closes.getD idx 0) ∧
            0.3 * a ≤ calculate_body_size (opens.getD idx 0) (closes.getD idx 0) ∧
            0.7 ≤ (max (opens.getD idx 0) (closes.getD idx 0) - lows.getD idx 0) /
              (highs.getD idx 0 - lows.getD idx 0) then
          some { pattern := "hammer", signal := "bullish",
                 confidence := pyRoundQ (min 95 (60 +
                   calculate_lower_shadow (lows.getD idx 0) (opens.getD idx 0) (closes.getD idx 0) /
                     calculate_body_size (opens.getD idx 0) (closes.getD idx 0) * 10)) }
        else none) := by
  simp only [detect_hammer, Option.getD_some]
  rw [if_neg (by omega)]
  rw [if_neg (by
    push_neg
    refine ⟨hrange, by simp, ?_⟩
    intro h
    rw [Option.some_inj] at h
    exact absurd h (by linarith))]
  split
  · rename_i hcond
    have hbody : calculate_body_size (opens.getD idx 0) (closes.getD idx 0) ≠ 0 := by
      have h1 := hcond.2.2.1
      intro h0
      rw [h0] at h1
      linarith
    unfold pydiv
    rw [if_neg hbody]
  · rfl

/-- Witness for C3 at the spec's candle: the amended formula gives
confidence 90 there. -/
theorem c3_hammer_formula_witness :
    (0 : ℕ) < 1 ∧ (0 : ℚ) < 5 ∧
    (([102.2] : List ℚ).getD 0 0 - ([94] : List ℚ).getD 0 0 ≠ 0) ∧
    detect_hammer 0 [100] [102.2] [94] [102] (some 5) =
      .ok (some { pattern := "hammer", signal := "bullish", confidence := 90 }) := by
  refine ⟨by decide, by decide, by decide, ?_⟩
  have h := c3_hammer_formula 0 [100] [102.2] [94] [102] 5 (by decide) (by decide) (by decide)
  rw [h]
  decide

/-- Dominant shadow at least twice a positive body forces the rounded
confidence `min(95, 60 + (shadow/body)*10)` into [80, 95]. -/
theorem confidence_in_range (sh bd : ℚ) (h2 : 2 * bd ≤ sh) (hbd : 0 < bd) :
    80 ≤ pyRoundQ (min 95 (60 + sh / bd * 10)) ∧
      pyRoundQ (min 95 (60 + sh / bd * 10)) ≤ 95 := by
  have hr : (2 : ℚ) ≤ sh / bd := (le_div_iff hbd).mpr (by linarith)
  have h80 : (80 : ℚ) ≤ min 95 (60 + sh / bd * 10) := le_min (by norm_num) (by linarith)
  have h95 : min 95 (60 + sh / bd * 10) ≤ 95 := min_le_left _ _
  constructor
  · have h1 := le_pyRound0 80 (min 95 (60 + sh / bd * 10)) (by exact_mod_cast h80)
    unfold pyRoundQ
    exact_mod_cast h1
  · have h1 := pyRound0_le 95 (min 95 (60 + sh / bd * 10)) (by exact_mod_cast h95)
    unfold pyRoundQ
    exact_mod_cast h1

/-- C9: whenever `detect_hammer` or `detect_shooting_star` returns a pattern,
its confidence lies in [80, 95]: the shadow/body >= 2 precondition forces
`60 + (shadow/body)*10 >= 80` and the `min` with 95 caps it above. -/
theorem c9_confidence_bounds (idx : ℕ) (opens highs lows closes : List ℚ)
    (atr : Option ℚ) (p : CandlePattern) :
    (detect_hammer idx opens highs lows closes atr = .ok (some p) →
      80 ≤ p.confidence ∧ p.confidence ≤ 95) ∧
    (detect_shooting_star idx opens highs lows closes atr = .ok (some p) →
      80 ≤ p.confidence ∧ p.confidence ≤ 95) := by
  constructor
  · intro h
    simp only [detect_hammer] at h
    split at h
    · exact absurd h (by simp)
    · split at h
      · exact absurd h (by simp)
      · split at h
        · rename_i hcond
          cases hdiv : pydiv
              (calculate_lower_shadow (lows.getD idx 0) (opens.getD idx 0) (closes.getD idx 0))
              (calculate_body_size (opens.getD idx 0) (closes.getD idx 0)) with
          | error e => rw [hdiv] at h; exact absurd h (by simp)
          | ok r =>
            rw [hdiv] at h
            have hp : p = { pattern := "hammer", signal := "bullish",
                            confidence := pyRoundQ (min 95 (60 + r * 10)) } :=
              (Option.some.inj (Except.ok.inj h)).symm
            unfold pydiv at hdiv
            split at hdiv
            · exact absurd hdiv (by simp)
            · rename_i hbd
              have hrr := Except.ok.inj hdiv
              have hbd0 : 0 < calculate_body_size (opens.getD idx 0) (closes.getD idx 0) :=
                lt_of_le_of_ne (abs_nonneg _) (Ne.symm hbd)
              have hres := confidence_in_range
                (calculate_lower_shadow (lows.getD idx 0) (opens.getD idx 0) (closes.getD idx 0))
                (calculate_body_size (opens.getD idx 0) (closes.getD idx 0))
                hcond.1 hbd0
              rw [hp]
              simp only []
              rw [← hrr]
              exact hres
        · exact absurd h (by simp)
  · intro h
    simp only [detect_shooting_star] at h
    split at h
    · exact absurd h (by simp)
    · split at h
      · exact absurd h (by simp)
      · split at h
        · rename_i hcond
          cases hdiv : pydiv
              (calculate_upper_shadow (highs.getD idx 0) (opens.getD idx 0) (closes.getD idx 0))
              (calculate_body_size (opens.getD idx 0) (closes.getD idx 0)) with
          | error e => rw [hdiv] at h; exact absurd h (by simp)
          | ok r =>
            rw [hdiv] at h
            have hp : p = { pattern := "shooting_star", signal := "bearish",
                            confidence := pyRoundQ (min 95 (60 + r * 10)) } :=
              (Option.some.inj (Except.ok.inj h)).symm
            unfold pydiv at hdiv
            split at hdiv
            · exact absurd hdiv (by simp)
            · rename_i hbd
              have hrr := Except.ok.inj hdiv
              have hbd0 : 0 < calculate_body_size (opens.getD idx 0) (closes.getD idx 0) :=
                lt_of_le_of_ne (abs_nonneg _) (Ne.symm hbd)
              have hres := confidence_in_range
                (calculate_upper_shadow (highs.getD idx 0) (opens.getD idx 0) (closes.getD idx 0))
                (calculate_body_size (opens.getD idx 0) (closes.getD idx 0))
                hcond.1 hbd0
              rw [hp]
              simp only []
              rw [← hrr]
              exact hres
        · exact absurd h (by simp)

/-- Witness for C9 at a concrete hammer (confidence 90) and shooting star. -/
theorem c9_confidence_bounds_witness :
    (80 : ℚ) ≤ 90 ∧ (90 : ℚ) ≤ 95 := by
  have h := (c9_confidence_bounds 0 [100] [102.2] [94] [102] (some 5)
    { pattern := "hammer", signal := "bullish", confidence := 90 }).1 (by decide)
  exact h

/-- Python division succeeds exactly on non-zero denominators. -/
theorem pydiv_ok (a b r : ℚ) : pydiv a b = .ok r ↔ (b ≠ 0 ∧ r = a / b) := by
  unfold pydiv
  split
  · rename_i h
    constructor
    · intro hc; exact absurd hc (by simp)
    · intro hc; exact absurd h hc.1
  · rename_i h
    constructor
    · intro hc; exact ⟨h, (Except.ok.inj hc).symm⟩
    · intro hc; rw [hc.2]

/-- Division by a non-zero denominator returns normally. -/
theorem pydiv_ok_of (a b : ℚ) (hb : b ≠ 0) : pydiv a b = .ok (a / b) := by
  unfold pydiv
  rw [if_neg hb]

/-- Python `max` returns normally on a non-empty list. -/
theorem pymax_ok (xs : List ℚ) (h : xs ≠ []) : ∃ q, pymax xs = .ok q := by
  cases xs with
  | nil => exact absurd rfl h
  | cons x tail => exact ⟨tail.foldl max x, rfl⟩

/-- Python `min` returns normally on a non-empty list. -/
theorem pymin_ok (xs : List ℚ) (h : xs ≠ []) : ∃ q, pymin xs = .ok q := by
  cases xs with
  | nil => exact absurd rfl h
  | cons x tail => exact ⟨tail.foldl min x, rfl⟩

/-- Length of a Python slice. -/
theorem pyslice_length (xs : List ℚ) (a b : ℕ) :
    (pyslice xs a b).length = min b xs.length - a := by
  unfold pyslice
  rw [List.length_drop, List.length_take]

/-- A Python slice with a start inside the list and before the stop is
non-empty. -/
theorem pyslice_ne_nil (xs : List ℚ) (a b : ℕ) (hab : a < b) (hax : a < xs.length) :
    pyslice xs a b ≠ [] := by
  intro h
  have hl := pyslice_length xs a b
  rw [h] at hl
  simp at hl
  omega

/-- A driving loop that returned a value did so from some index of the list. -/
theorem firstSomeE_some_elim {α : Type} (f : ℕ → Except Unit (Option α)) (L : List ℕ)
    (x : α) (h : firstSomeE f L = .ok (some x)) : ∃ i ∈ L, f i = .ok (some x) := by
  induction L with
  | nil => exact absurd h (by simp [firstSomeE])
  | cons i is ih =>
    unfold firstSomeE at h
    split at h
    · exact absurd h (by simp)
    · rename_i heq
      exact ⟨i, by simp, heq.trans h⟩
    · rcases ih h with ⟨j, hj, hfj⟩
      exact ⟨j, by simp [hj], hfj⟩

/-- A driving loop whose body always returns normally returns normally. -/
theorem firstSomeE_ok {α : Type} (f : ℕ → Except Unit (Option α)) (L : List ℕ)
    (h : ∀ i ∈ L, ∃ r, f i = .ok r) : ∃ r, firstSomeE f L = .ok r := by
  induction L with
  | nil => exact ⟨none, rfl⟩
  | cons i is ih =>
    obtain ⟨r, hr⟩ := h i (by simp)
    cases r with
    | some a =>
      refine ⟨some a, ?_⟩
      unfold firstSomeE
      rw [hr]
    | none =>
      obtain ⟨r2, hr2⟩ := ih (fun j hj => h j (by simp [hj]))
      refine ⟨r2, ?_⟩
      unfold firstSomeE
      rw [hr]
      exact hr2

/-- Membership in the descending Python range. -/
theorem mem_pyRangeDown (a b i : ℕ) (h : i ∈ pyRangeDown a b) : b < i ∧ i ≤ a := by
  unfold pyRangeDown at h
  rw [List.mem_reverse, List.mem_range'_1] at h
  omega

/-- A breakout index returned by the breakout search lies in `[he, n)`. -/
theorem findBreakout_bounds (closes volumes : List ℚ) (cs ce hs he : ℕ) (res : ℚ)
    (n i : ℕ) (h : findBreakout closes volumes cs ce hs he res n = some i) :
    he ≤ i ∧ i < n := by
  unfold findBreakout at h
  have hm := List.mem_of_find?_eq_some h
  rw [List.mem_range'_1] at hm
  omega

/-- Facts about any record produced by one run of the handle-length loop
body: the depth field is the rounded cup depth, `days_ago` is at least −1,
the status is confirmed or forming, and a confirmed record has `days_ago`
between 0 and 6. -/
theorem handleLoopBody_some (highs lows closes volumes : List ℚ) (dates : List String)
    (l rr : ℕ) (lrp cbp depth : ℚ) (he : ℕ) (rec : CupRecord)
    (hN : 7 ≤ closes.length) (hhe : he ≤ closes.length)
    (h : handleLoopBody highs lows closes volumes dates l rr lrp cbp depth he =
      .ok (some rec)) :
    rec.depth_percent = pyRound2 depth ∧
    -1 ≤ rec.days_ago ∧
    (rec.status = "confirmed" ∨ rec.status = "forming") ∧
    (rec.status = "confirmed" → 0 ≤ rec.days_ago ∧ rec.days_ago ≤ 6) := by
  simp only [handleLoopBody] at h
  split at h
  · exact absurd h (by simp)
  · exact absurd h (by simp)
  · split at h
    · exact absurd h (by simp)
    · exact absurd h (by simp)
    · split at h
      · exact absurd h (by simp)
      · split at h
        · exact absurd h (by simp)
        · exact absurd h (by simp)
        · split at h
          · exact absurd h (by simp)
          · rename_i xa xb handle_res handle_lowv hpmax hpmin st status days hst
            have hrec := Option.some.inj (Except.ok.inj h)
            subst hrec
            refine ⟨rfl, ?_⟩
            split at hst
            · rename_i hcond
              have hp := Option.some.inj hst
              rw [Prod.mk.injEq] at hp
              obtain ⟨hstatus, hdays⟩ := hp
              rcases hfb : findBreakout closes volumes l rr rr he handle_res
                  closes.length with _ | i
              · rw [hfb] at hcond
                simp at hcond
              · rw [hfb] at hcond hdays
                simp only [Option.getD_some] at hcond hdays
                obtain ⟨hle, hlt⟩ := findBreakout_bounds closes volumes l rr rr he
                  handle_res closes.length i hfb
                refine ⟨?_, ?_, ?_⟩
                · show (-1 : ℤ) ≤ days
                  omega
                · exact Or.inl hstatus.symm
                · intro _
                  constructor
                  · show (0 : ℤ) ≤ days
                    omega
                  · show days ≤ (6 : ℤ)
                    omega
            · split at hst
              · rename_i hcond
                have hp := Option.some.inj hst
                rw [Prod.mk.injEq] at hp
                obtain ⟨hstatus, hdays⟩ := hp
                refine ⟨?_, ?_, ?_⟩
                · show (-1 : ℤ) ≤ days
                  omega
                · exact Or.inr hstatus.symm
                · intro hc
                  exact absurd (hstatus.trans hc) (by decide)
              · exact absurd hst (by simp)

/-- Any record produced by one run of the bottom-search loop body came from a
handle-loop run on a depth-validated cup whose handle end is inside the
series. -/
theorem bottomSearchBody_some (highs lows closes volumes : List ℚ) (dates : List String)
    (l : ℕ) (lrp : ℚ) (bse : ℕ) (rec : CupRecord)
    (h : bottomSearchBody highs lows closes volumes dates l lrp bse = .ok (some rec)) :
    ∃ cbp depth rr he, depthGate depth = true ∧ he ≤ closes.length ∧
      handleLoopBody highs lows closes volumes dates l rr lrp cbp depth he =
        .ok (some rec) := by
  simp only [bottomSearchBody] at h
  split at h
  · exact absurd h (by simp)
  · split at h
    · exact absurd h (by simp)
    · rename_i hmi off cbp hoff
      split at h
      · exact absurd h (by simp)
      · rename_i xd d0 hd0
        split at h
        · exact absurd h (by simp)
        · split at h
          · exact absurd h (by simp)
          · split at h
            · exact absurd h (by simp)
            · exact absurd h (by simp)
            · rename_i hgate hb xf rr rrp hrim
              split at h
              · exact absurd h (by simp)
              · split at h
                · exact absurd h (by simp)
                · rename_i hviol hsym
                  obtain ⟨he, hhe, hbody⟩ := firstSomeE_some_elim _ _ _ h
                  rw [List.mem_range'_1] at hhe
                  have hmin : min (rr + 25) closes.length ≤ closes.length :=
                    min_le_right _ _
                  refine ⟨cbp, d0 * 100, rr, he, ?_, by omega, hbody⟩
                  rw [Bool.not_eq_false] at hgate
                  exact hgate

/-- Any record the cup-and-handle detector returns passed the depth gate
(its depth field is the rounded validated depth), has `days_ago` at least −1,
status confirmed or forming, and a confirmed record has `days_ago` in
[0, 6]. -/
theorem detect_cup_some_facts (opens highs lows closes volumes : List ℚ)
    (dates : List String) (rec : CupRecord)
    (h : detect_cup_and_handle opens highs lows closes volumes dates = .ok (some rec)) :
    (∃ depth, depthGate depth = true ∧ rec.depth_percent = pyRound2 depth) ∧
    -1 ≤ rec.days_ago ∧
    (rec.status = "confirmed" ∨ rec.status = "forming") ∧
    (rec.status = "confirmed" → 0 ≤ rec.days_ago ∧ rec.days_ago ≤ 6) := by
  simp only [detect_cup_and_handle] at h
  split at h
  · exact absurd h (by simp)
  · rename_i hlen
    obtain ⟨l, hl, hbody⟩ := firstSomeE_some_elim _ _ _ h
    simp only [leftRimBody] at hbody
    split at hbody
    · exact absurd hbody (by simp)
    · split at hbody
      · exact absurd hbody (by simp)
      · obtain ⟨bse, hbse, hbot⟩ := firstSomeE_some_elim _ _ _ hbody
        obtain ⟨cbp, depth, rr, he, hgate, hhe, hhl⟩ :=
          bottomSearchBody_some _ _ _ _ _ _ _ _ _ hbot
        have hN : 7 ≤ closes.length := by omega
        obtain ⟨hdep, hd1, hd2, hd3⟩ :=
          handleLoopBody_some _ _ _ _ _ _ _ _ _ _ _ _ hN hhe hhl
        exact ⟨⟨depth, hgate, hdep⟩, hd1, hd2, hd3⟩

/-- The two-decimal Python rounding of a rational between two integers stays
between them. -/
theorem pyRound2_bounds (lo hi : ℤ) (q : ℚ) (h1 : (lo : ℚ) ≤ q) (h2 : q ≤ (hi : ℚ)) :
    (lo : ℚ) ≤ pyRound2 q ∧ pyRound2 q ≤ (hi : ℚ) := by
  have ha := le_pyRound0 (100 * lo) (q * 100) (by push_cast; linarith)
  have hb := pyRound0_le (100 * hi) (q * 100) (by push_cast; linarith)
  unfold pyRound2
  constructor
  · have hc : ((100 * lo : ℤ) : ℚ) ≤ (pyRound0 (q * 100) : ℚ) := by exact_mod_cast ha
    push_cast at hc
    linarith
  · have hc : ((pyRound0 (q * 100) : ℤ) : ℚ) ≤ ((100 * hi : ℤ) : ℚ) := by exact_mod_cast hb
    push_cast at hc
    linarith

/-- C4: the depth gate of the cup search accepts exactly the closed interval
[12, 35] (11.99 rejected, 12.00 accepted, 35.01 rejected), the symmetry gate
accepts exactly a non-zero left duration with right/left ratio in the closed
interval [0.5, 2.0] and right duration of at least 5 bars (0.49 rejected,
0.50 accepted), and every record the cup-and-handle detector returns has its
depth within [12, 35]. -/
theorem c4_cup_gates :
    (∀ depth : ℚ, depthGate depth = true ↔ (12 ≤ depth ∧ depth ≤ 35)) ∧
    (∀ ld rd : ℕ, symmetryGate ld rd = true ↔
      (ld ≠ 0 ∧ 1/2 ≤ (rd : ℚ) / (ld : ℚ) ∧ (rd : ℚ) / (ld : ℚ) ≤ 2 ∧ 5 ≤ rd)) ∧
    depthGate 11.99 = false ∧ depthGate 12 = true ∧ depthGate 35.01 = false ∧
    symmetryGate 100 49 = false ∧ symmetryGate 100 50 = true ∧
    (∀ (opens highs lows closes volumes : List ℚ) (dates : List String) (rec : CupRecord),
      detect_cup_and_handle opens highs lows closes volumes dates = .ok (some rec) →
      12 ≤ rec.depth_percent ∧ rec.depth_percent ≤ 35) := by
  refine ⟨?_, ?_, by decide, by decide, by decide, by decide, by decide, ?_⟩
  · intro depth
    unfold depthGate
    split
    · rename_i h
      constructor
      · intro hc; exact absurd hc (by decide)
      · intro hc; rcases h with h | h <;> linarith [hc.1, hc.2]
    · rename_i h
      push_neg at h
      constructor
      · intro _; exact ⟨by linarith [h.1], by linarith [h.2]⟩
      · intro _; rfl
  · intro ld rd
    unfold symmetryGate
    constructor
    · intro ht
      split at ht
      · exact absurd ht (by decide)
      · split at ht
        · exact absurd ht (by decide)
        · split at ht
          · exact absurd ht (by decide)
          · rename_i h0 hr h5
            push_neg at hr
            exact ⟨h0, by linarith [hr.1], by linarith [hr.2], by omega⟩
    · rintro ⟨h0, h1, h2, h5⟩
      rw [if_neg h0, if_neg (by push_neg; constructor <;> linarith), if_neg (by omega)]
  · intro opens highs lows closes volumes dates rec hrec
    obtain ⟨⟨depth, hgate, hdep⟩, _, _, _⟩ :=
      detect_cup_some_facts opens highs lows closes volumes dates rec hrec
    have hb : 12 ≤ depth ∧ depth ≤ 35 := by
      unfold depthGate at hgate
      split at hgate
      · exact absurd hgate (by decide)
      · rename_i hx
        push_neg at hx
        exact ⟨by linarith [hx.1], by linarith [hx.2]⟩
    have hbd := pyRound2_bounds 12 35 depth (by exact_mod_cast hb.1) (by exact_mod_cast hb.2)
    push_cast at hbd
    rw [hdep]
    exact hbd

set_option maxRecDepth 100000 in
/-- Witness for C4: on the 71-bar series the detector returns a record, and
its depth (20) lies in [12, 35]. -/
theorem c4_cup_gates_witness :
    detect_cup_and_handle [] cupHighsA cupLowsA cupClosesA cupVolumesA [] =
      .ok (some cupRecA) ∧ (12 : ℚ) ≤ 20 ∧ (20 : ℚ) ≤ 35 := by
  have hdet : detect_cup_and_handle [] cupHighsA cupLowsA cupClosesA cupVolumesA [] =
      .ok (some cupRecA) := by decide
  exact ⟨hdet, c4_cup_gates.2.2.2.2.2.2.2 [] cupHighsA cupLowsA cupClosesA cupVolumesA
    [] cupRecA hdet⟩

/-- Insertion into the date-sorted list only adds the inserted element. -/
theorem mem_insertByDate (r x : ScanRecord) (xs : List ScanRecord)
    (h : r ∈ insertByDate x xs) : r = x ∨ r ∈ xs := by
  induction xs with
  | nil => simpa [insertByDate] using h
  | cons y ys ih =>
    unfold insertByDate at h
    split at h
    · rcases List.mem_cons.mp h with h1 | h1
      · exact Or.inl h1
      · exact Or.inr h1
    · rcases List.mem_cons.mp h with h1 | h1
      · exact Or.inr (by simp [h1])
      · rcases ih h1 with h2 | h2
        · exact Or.inl h2
        · exact Or.inr (by simp [h2])

/-- Sorting by date does not add records. -/
theorem mem_sortByDate (r : ScanRecord) (xs : List ScanRecord)
    (h : r ∈ sortByDate xs) : r ∈ xs := by
  induction xs with
  | nil => simpa [sortByDate] using h
  | cons y ys ih =>
    unfold sortByDate at h
    rcases mem_insertByDate r y (sortByDate ys) h with h1 | h1
    · simp [h1]
    · simp [ih h1]

/-- `calculate_days_ago` is never negative. -/
theorem calculate_days_ago_nonneg (p : String) (dates : List String) :
    0 ≤ calculate_days_ago p dates := by
  unfold calculate_days_ago
  split
  · exact le_refl 0
  · split
    · exact le_max_left 0 _
    · exact le_refl 0

/-- Every record built by the scanner loop has a non-negative `days_ago`. -/
theorem scanLoop_days (opens highs lows closes volumes : List ℚ) (atr : Option ℚ)
    (dates : List String) (L : List ℕ) (recs : List ScanRecord)
    (h : scanLoop opens highs lows closes volumes atr dates L = .ok recs) :
    ∀ r ∈ recs, 0 ≤ r.days_ago := by
  induction L generalizing recs with
  | nil =>
    intro r hr
    simp only [scanLoop] at h
    rw [← Except.ok.inj h] at hr
    simp at hr
  | cons i is ih =>
    intro r hr
    simp only [scanLoop] at h
    split at h
    · exact absurd h (by simp)
    · split at h
      · exact absurd h (by simp)
      · rename_i tail htail
        split at h
        · rw [← Except.ok.inj h] at hr
          exact ih tail htail r hr
        · split at h
          · rw [← Except.ok.inj h] at hr
            rcases List.mem_cons.mp hr with h1 | h1
            · rw [h1]
              exact calculate_days_ago_nonneg _ _
            · exact ih tail htail r h1
          · rw [← Except.ok.inj h] at hr
            exact ih tail htail r hr

set_option maxRecDepth 100000 in
/-- C5 counterexample: on the 71-bar series the cup-and-handle detector
returns a forming record whose `days_ago` is −1, so the produced `days_ago`
is not always a non-negative integer. -/
theorem c5_days_ago_cex :
    cupStatus (detect_cup_and_handle [] cupHighsA cupLowsA cupClosesA cupVolumesA []) =
      some "forming" ∧
    cupDaysAgo (detect_cup_and_handle [] cupHighsA cupLowsA cupClosesA cupVolumesA []) =
      some (-1) := by
  have hdet : detect_cup_and_handle [] cupHighsA cupLowsA cupClosesA cupVolumesA [] =
      .ok (some cupRecA) := by decide
  constructor
  · rw [hdet]
    rfl
  · rw [hdet]
    rfl

/-- C5 (amended): every candlestick record from the 7-day scanner has a
non-negative `days_ago`, and `days_ago` is 0 whenever a date string fails to
parse; a confirmed cup-and-handle record has `days_ago` in [0, 6], but a
forming record is only guaranteed `days_ago ≥ −1`, the value −1 occurring
exactly when the chosen handle window ends one bar past the last index. -/
theorem c5_days_ago :
    (∀ (p : String) (dates : List String), 0 ≤ calculate_days_ago p dates) ∧
    (∀ (p : String) (dates : List String), parseDate p = none →
      calculate_days_ago p dates = 0) ∧
    (∀ (opens highs lows closes volumes : List ℚ) (atr : Option ℚ)
      (dates : List String) (recs : List ScanRecord),
      scan_patterns_last_7days opens highs lows closes volumes atr dates = .ok recs →
      ∀ r ∈ recs, 0 ≤ r.days_ago) ∧
    (∀ (opens highs lows closes volumes : List ℚ) (dates : List String) (rec : CupRecord),
      detect_cup_and_handle opens highs lows closes volumes dates = .ok (some rec) →
      -1 ≤ rec.days_ago ∧
        (rec.status = "confirmed" → 0 ≤ rec.days_ago ∧ rec.days_ago ≤ 6)) := by
  refine ⟨calculate_days_ago_nonneg, ?_, ?_, ?_⟩
  · intro p dates hp
    unfold calculate_days_ago
    split
    · rfl
    · rw [hp]
  · intro opens highs lows closes volumes atr dates recs h r hr
    simp only [scan_patterns_last_7days] at h
    split at h
    · rw [← Except.ok.inj h] at hr
      simp at hr
    · split at h
      · exact absurd h (by simp)
      · rename_i pats hpats
        rw [← Except.ok.inj h] at hr
        exact scanLoop_days _ _ _ _ _ _ _ _ _ hpats r (mem_sortByDate r pats hr)
  · intro opens highs lows closes volumes dates rec h
    obtain ⟨_, h1, _, h3⟩ := detect_cup_some_facts opens highs lows closes volumes dates rec h
    exact ⟨h1, h3⟩

set_option maxRecDepth 100000 in
/-- Witness for C5 at concrete inputs: an unparsable date yields 0, and the
forming record of the 71-bar series satisfies the −1 floor. -/
theorem c5_days_ago_witness :
    parseDate "bad" = none ∧
    calculate_days_ago "bad" ["2024-01-05"] = 0 ∧
    (-1 : ℤ) ≤ (-1 : ℤ) := by
  have hp : parseDate "bad" = none := by decide
  have hdet : detect_cup_and_handle [] cupHighsA cupLowsA cupClosesA cupVolumesA [] =
      .ok (some cupRecA) := by decide
  refine ⟨hp, c5_days_ago.2.1 "bad" ["2024-01-05"] hp, ?_⟩
  exact (c5_days_ago.2.2.2 [] cupHighsA cupLowsA cupClosesA cupVolumesA [] cupRecA hdet).1

/-- With the handle-volume gate already passed, the breakout-volume check is
exactly "breakout volume at least 1.5 times the handle average". -/
theorem validate_volume_breakout (volumes : List ℚ) (cs ce hs he i : ℕ)
    (hvv : validate_volume_requirements volumes cs ce hs he none = true) :
    (validate_volume_requirements volumes cs ce hs he (some i) = true ↔
      (pyslice volumes hs he).sum / ((pyslice volumes hs he).length : ℚ) * 1.5 ≤
        volumes.getD i 0) := by
  simp only [validate_volume_requirements] at hvv ⊢
  split at hvv
  · exact absurd hvv (by decide)
  · split at hvv
    · exact absurd hvv (by decide)
    · split at hvv
      · exact absurd hvv (by decide)
      · split at hvv
        · exact absurd hvv (by decide)
        · rename_i h1 h2 h3 h4
          rw [if_neg h1, if_neg h2, if_neg h3, if_neg h4]
          split
          · rename_i h5
            constructor
            · intro hc
              exact absurd hc (by decide)
            · intro hc
              linarith
          · rename_i h5
            push_neg at h5
            constructor
            · intro _
              exact h5
            · intro _
              rfl

/-- A successful `find?` over `range'` finds the least index satisfying the
predicate. -/
theorem find?_range'_some (p : ℕ → Bool) (s n i : ℕ)
    (h : List.find? p (List.range' s n) = some i) :
    s ≤ i ∧ i < s + n ∧ p i = true ∧ ∀ j, s ≤ j → j < i → p j = false := by
  induction n generalizing s with
  | zero => simp [List.range'] at h
  | succ m ih =>
    rw [List.range'_succ, List.find?_cons] at h
    split at h
    · rename_i hps
      have hi := Option.some.inj h
      subst hi
      exact ⟨le_refl s, by omega, hps, fun j h1 h2 => by omega⟩
    · rename_i hps
      obtain ⟨h1, h2, h3, h4⟩ := ih (s + 1) h
      refine ⟨by omega, by omega, h3, ?_⟩
      intro j hj1 hj2
      rcases Nat.eq_or_lt_of_le hj1 with hj | hj
      · rw [← hj]
        simpa using hps
      · exact h4 j (by omega) hj2

/-- A failed `find?` over `range'` means no index in the range satisfies the
predicate. -/
theorem find?_range'_none (p : ℕ → Bool) (s n : ℕ)
    (h : List.find? p (List.range' s n) = none) :
    ∀ i, s ≤ i → i < s + n → p i = false := by
  intro i h1 h2
  rw [List.find?_eq_none] at h
  have h3 := h i (by rw [List.mem_range'_1]; omega)
  simpa using h3

/-- C7: with the handle-volume gate passed, the breakout chosen by the
detector is the first bar at or after the handle end whose close is at least
`handle_resistance * 1.01` and whose volume is at least 1.5 times the
handle's average volume; a bar meeting the close condition but not the
volume condition is not the breakout and the search continues past it, and
when no bar qualifies there is no breakout. -/
theorem c7_breakout (closes volumes : List ℚ) (cs ce hs he n i : ℕ) (res : ℚ)
    (hvv : validate_volume_requirements volumes cs ce hs he none = true) :
    (findBreakout closes volumes cs ce hs he res n = some i →
      (he ≤ i ∧ i < n ∧ res * 1.01 ≤ closes.getD i 0 ∧
        (pyslice volumes hs he).sum / ((pyslice volumes hs he).length : ℚ) * 1.5 ≤
          volumes.getD i 0 ∧
        ∀ j, he ≤ j → j < i →
          ¬(res * 1.01 ≤ closes.getD j 0 ∧
            (pyslice volumes hs he).sum / ((pyslice volumes hs he).length : ℚ) * 1.5 ≤
              volumes.getD j 0))) ∧
    (findBreakout closes volumes cs ce hs he res n = none →
      ∀ j, he ≤ j → j < n →
        ¬(res * 1.01 ≤ closes.getD j 0 ∧
          (pyslice volumes hs he).sum / ((pyslice volumes hs he).length : ℚ) * 1.5 ≤
            volumes.getD j 0)) := by
  have hpc : ∀ j : ℕ,
      ((if closes.getD j 0 ≥ res * 1.01 then
          validate_volume_requirements volumes cs ce hs he (some j)
        else false) = true) ↔
      (res * 1.01 ≤ closes.getD j 0 ∧
        (pyslice volumes hs he).sum / ((pyslice volumes hs he).length : ℚ) * 1.5 ≤
          volumes.getD j 0) := by
    intro j
    split
    · rename_i hc
      rw [validate_volume_breakout volumes cs ce hs he j hvv]
      constructor
      · intro hx
        exact ⟨hc, hx⟩
      · intro hx
        exact hx.2
    · rename_i hc
      constructor
      · intro hx
        exact absurd hx (by decide)
      · intro hx
        exact absurd hx.1 hc
  constructor
  · intro hfb
    unfold findBreakout at hfb
    obtain ⟨h1, h2, h3, h4⟩ := find?_range'_some _ _ _ _ hfb
    refine ⟨h1, by omega, ?_, ?_⟩
    · exact ((hpc i).mp h3).1
    constructor
    · exact ((hpc i).mp h3).2
    · intro j hj1 hj2 hcontra
      have := h4 j hj1 hj2
      rw [← hpc j] at hcontra
      rw [this] at hcontra
      exact absurd hcontra (by decide)
  · intro hfb j hj1 hj2 hcontra
    unfold findBreakout at hfb
    have := find?_range'_none _ _ _ hfb j hj1 (by omega)
    rw [← hpc j] at hcontra
    rw [this] at hcontra
    exact absurd hcontra (by decide)

/-- Witness for C7: in a concrete series the bar at index 3 exceeds the
resistance threshold on close but fails the volume condition and is skipped;
the breakout is the later bar 4. -/
theorem c7_breakout_witness :
    validate_volume_requirements [1000, 100, 100, 100, 2000] 0 1 1 3 none = true ∧
    findBreakout [10, 10, 10, 20, 20] [1000, 100, 100, 100, 2000] 0 1 1 3 10 5 =
      some 4 ∧
    ¬((10 : ℚ) * 1.01 ≤ ([10, 10, 10, 20, 20] : List ℚ).getD 3 0 ∧
      (pyslice [1000, 100, 100, 100, 2000] 1 3).sum /
        ((pyslice [1000, 100, 100, 100, 2000] 1 3).length : ℚ) * 1.5 ≤
        ([1000, 100, 100, 100, 2000] : List ℚ).getD 3 0) := by
  have hvv : validate_volume_requirements [1000, 100, 100, 100, 2000] 0 1 1 3 none =
      true := by decide
  have hfb : findBreakout [10, 10, 10, 20, 20] [1000, 100, 100, 100, 2000] 0 1 1 3
      10 5 = some 4 := by decide
  refine ⟨hvv, hfb, ?_⟩
  exact ((c7_breakout [10, 10, 10, 20, 20] [1000, 100, 100, 100, 2000] 0 1 1 3 5 4 10
    hvv).1 hfb).2.2.2.2 3 (by decide) (by decide)

/-- Invariant of the right-rim search loop: any returned candidate is the
high at its index and deviates from the left rim price by at most 3%. -/
theorem findRightRimAux_some (highs : List ℚ) (lrp : ℚ) (L : List ℕ)
    (best : Option (ℕ × ℚ)) (bd : Option ℚ) (rr : ℕ) (p : ℚ)
    (hinv : best = none ∨ ∃ i q, best = some (i, q) ∧ q = highs.getD i 0 ∧
      |q - lrp| / lrp ≤ 0.03)
    (h : findRightRimAux highs lrp L best bd = .ok (some (rr, p))) :
    p = highs.getD rr 0 ∧ |p - lrp| / lrp ≤ 0.03 := by
  induction L generalizing best bd with
  | nil =>
    unfold findRightRimAux at h
    rcases hinv with h1 | ⟨i, q, h1, h2, h3⟩
    · rw [h1] at h
      exact absurd h (by simp)
    · rw [h1] at h
      have h4 := Option.some.inj (Except.ok.inj h)
      rw [Prod.mk.injEq] at h4
      obtain ⟨hi, hq⟩ := h4
      rw [← hq, ← hi]
      exact ⟨h2, h3⟩
  | cons j js ih =>
    unfold findRightRimAux at h
    split at h
    · exact absurd h (by simp)
    · rename_i diff hdiff
      rw [pydiv_ok] at hdiff
      obtain ⟨hlrp0, hdiffeq⟩ := hdiff
      split at h
      · rename_i hle
        split at h
        · exact ih _ _ (Or.inr ⟨j, highs.getD j 0, rfl, rfl, by rw [← hdiffeq]; exact hle⟩) h
        · split at h
          · exact ih _ _ (Or.inr ⟨j, highs.getD j 0, rfl, rfl, by rw [← hdiffeq]; exact hle⟩) h
          · exact ih _ _ hinv h
      · exact ih _ _ hinv h

/-- The right-rim search only returns candidates within 3% of the left rim
price. -/
theorem findRightRim_some (highs : List ℚ) (lrp : ℚ) (lo hi rr : ℕ) (p : ℚ)
    (h : findRightRim highs lrp lo hi = .ok (some (rr, p))) :
    p = highs.getD rr 0 ∧ |p - lrp| / lrp ≤ 0.03 :=
  findRightRimAux_some highs lrp _ none none rr p (Or.inl rfl) h

/-- C10: a right rim selected by the search and surviving the rim-violation
check (whose range includes the right-rim index) has its price between
`0.97 * left_rim_price` and `1.02 * left_rim_price`. -/
theorem c10_right_rim_bounds (highs : List ℚ) (lrp : ℚ) (l lo hi rr : ℕ) (p : ℚ)
    (hlrp : 0 < lrp) (hlt : l < rr)
    (hfind : findRightRim highs lrp lo hi = .ok (some (rr, p)))
    (hviol : rimViolation highs lrp l rr = false) :
    0.97 * lrp ≤ p ∧ p ≤ 1.02 * lrp := by
  obtain ⟨hp, hd⟩ := findRightRim_some highs lrp lo hi rr p hfind
  have habs : |p - lrp| ≤ 0.03 * lrp := by
    rw [div_le_iff hlrp] at hd
    linarith
  have hlow : 0.97 * lrp ≤ p := by
    have h1 := (abs_le.mp habs).1
    linarith
  unfold rimViolation at hviol
  rw [List.any_eq_false] at hviol
  have hmem : rr ∈ List.range' (l + 1) (rr + 1 - (l + 1)) := by
    rw [List.mem_range'_1]
    omega
  have hv := hviol rr hmem
  simp only [decide_eq_true_eq, not_lt] at hv
  exact ⟨hlow, by rw [hp]; linarith⟩

/-- Witness for C10 at a concrete series: the selected right rim price 100.5
for a left rim price 100 lies within [97, 102]. -/
theorem c10_right_rim_bounds_witness :
    findRightRim [100, 90, 90, 90, 90, 90, 100.5] 100 1 7 = .ok (some (6, 100.5)) ∧
    rimViolation [100, 90, 90, 90, 90, 90, 100.5] 100 0 6 = false ∧
    (0.97 : ℚ) * 100 ≤ 100.5 ∧ (100.5 : ℚ) ≤ 1.02 * 100 := by
  have h1 : findRightRim [100, 90, 90, 90, 90, 90, 100.5] 100 1 7 =
      .ok (some (6, 100.5)) := by decide
  have h2 : rimViolation [100, 90, 90, 90, 90, 90, 100.5] 100 0 6 = false := by decide
  have h3 := c10_right_rim_bounds [100, 90, 90, 90, 90, 90, 100.5] 100 0 1 7 6 100.5
    (by norm_num) (by omega) h1 h2
  exact ⟨h1, h2, h3.1, h3.2⟩

/-- Appending a firing classifier makes it the kept one. -/
theorem lastSome?_append_some {α : Type} (L : List (Option α)) (x : α) :
    lastSome? (L ++ [some x]) = some x := by
  induction L with
  | nil => rfl
  | cons o rest ih =>
    show lastSome? (o :: (rest ++ [some x])) = some x
    unfold lastSome?
    rw [ih]

/-- Appending a non-firing classifier keeps the previous winner. -/
theorem lastSome?_append_none {α : Type} (L : List (Option α)) :
    lastSome? (L ++ [(none : Option α)]) = lastSome? L := by
  induction L with
  | nil => rfl
  | cons o rest ih =>
    show lastSome? (o :: (rest ++ [none])) = lastSome? (o :: rest)
    unfold lastSome?
    rw [ih]

/-- Insertion grows the sorted list by one. -/
theorem length_insertByDate (x : ScanRecord) (xs : List ScanRecord) :
    (insertByDate x xs).length = xs.length + 1 := by
  induction xs with
  | nil => rfl
  | cons y ys ih =>
    unfold insertByDate
    split
    · simp
    · simp [ih]

/-- Sorting preserves length. -/
theorem length_sortByDate (xs : List ScanRecord) :
    (sortByDate xs).length = xs.length := by
  induction xs with
  | nil => rfl
  | cons y ys ih =>
    unfold sortByDate
    rw [length_insertByDate, ih]
    rfl

/-- The scanner loop produces at most one record per scanned index. -/
theorem scanLoop_length (opens highs lows closes volumes : List ℚ) (atr : Option ℚ)
    (dates : List String) (L : List ℕ) (recs : List ScanRecord)
    (h : scanLoop opens highs lows closes volumes atr dates L = .ok recs) :
    recs.length ≤ L.length := by
  induction L generalizing recs with
  | nil =>
    simp only [scanLoop] at h
    rw [← Except.ok.inj h]
    simp
  | cons i is ih =>
    simp only [scanLoop] at h
    split at h
    · exact absurd h (by simp)
    · split at h
      · exact absurd h (by simp)
      · rename_i tail htail
        split at h
        · rw [← Except.ok.inj h]
          exact le_trans (ih tail htail) (by simp)
        · split at h
          · rw [← Except.ok.inj h]
            simpa using ih tail htail
          · rw [← Except.ok.inj h]
            exact le_trans (ih tail htail) (by simp)

/-- C8: at each scanned index every applicable classifier is evaluated in the
fixed order hammer, shooting star, bullish engulfing, bearish engulfing (for
index >= 1), morning star, evening star, three white soldiers, three black
crows (for index >= 2), and the last classifier that fires is the one kept;
the scanner keeps at most one pattern per scanned index (at most 7 records). -/
theorem c8_scan_order :
    (∀ (idx : ℕ) (opens highs lows closes volumes : List ℚ) (atr : Option ℚ)
      (h s : Option CandlePattern),
      detect_hammer idx opens highs lows closes atr = .ok h →
      detect_shooting_star idx opens highs lows closes atr = .ok s →
      scanDetectAt idx opens highs lows closes volumes atr =
        .ok (lastSome? ([h, s] ++
          (if 1 ≤ idx then
            [detect_bullish_engulfing idx opens highs lows closes volumes atr,
             detect_bearish_engulfing idx opens highs lows closes volumes atr]
          else []) ++
          (if 2 ≤ idx then
            [detect_morning_star idx opens highs lows closes atr,
             detect_evening_star idx opens highs lows closes atr,
             detect_three_white_soldiers idx opens highs lows closes atr,
             detect_three_black_crows idx opens highs lows closes atr]
          else [])))) ∧
    (∀ (opens highs lows closes volumes : List ℚ) (atr : Option ℚ)
      (dates : List String) (recs : List ScanRecord),
      scan_patterns_last_7days opens highs lows closes volumes atr dates = .ok recs →
      recs.length ≤ 7) := by
  constructor
  · intro idx opens highs lows closes volumes atr h s hh hs
    by_cases h2 : 2 ≤ idx
    · have h1 : 1 ≤ idx := by omega
      simp only [scanDetectAt, hh, hs, if_pos h1, if_pos h2]
      cases h <;> cases s <;>
        cases detect_bullish_engulfing idx opens highs lows closes volumes atr <;>
        cases detect_bearish_engulfing idx opens highs lows closes volumes atr <;>
        cases detect_morning_star idx opens highs lows closes atr <;>
        cases detect_evening_star idx opens highs lows closes atr <;>
        cases detect_three_white_soldiers idx opens highs lows closes atr <;>
        cases detect_three_black_crows idx opens highs lows closes atr <;>
        rfl
    · by_cases h1 : 1 ≤ idx
      · simp only [scanDetectAt, hh, hs, if_pos h1, if_neg h2]
        cases h <;> cases s <;>
          cases detect_bullish_engulfing idx opens highs lows closes volumes atr <;>
          cases detect_bearish_engulfing idx opens highs lows closes volumes atr <;>
          rfl
      · simp only [scanDetectAt, hh, hs, if_neg h1, if_neg h2]
        cases h <;> cases s <;> rfl
  · intro opens highs lows closes volumes atr dates recs h
    simp only [scan_patterns_last_7days] at h
    split at h
    · rw [← Except.ok.inj h]
      simp
    · split at h
      · exact absurd h (by simp)
      · rename_i pats hpats
        rw [← Except.ok.inj h, length_sortByDate]
        have hlen := scanLoop_length opens highs lows closes volumes atr dates _ pats hpats
        rw [List.length_range'] at hlen
        omega

/-- Witness for C8 at index 0 of a one-candle series: the hammer fires, the
shooting star does not, and the scanner keeps the last firing classifier. -/
theorem c8_scan_order_witness :
    detect_hammer 0 [100] [102.2] [94] [102] (some 5) =
      .ok (some { pattern := "hammer", signal := "bullish", confidence := 90 }) ∧
    detect_shooting_star 0 [100] [102.2] [94] [102] (some 5) = .ok none ∧
    scanDetectAt 0 [100] [102.2] [94] [102] [500] (some 5) =
      .ok (lastSome?
        ([some { pattern := "hammer", signal := "bullish", confidence := 90 }, none] ++
          (if 1 ≤ 0 then
            [detect_bullish_engulfing 0 [100] [102.2] [94] [102] [500] (some 5),
             detect_bearish_engulfing 0 [100] [102.2] [94] [102] [500] (some 5)]
          else []) ++
          (if 2 ≤ 0 then
            [detect_morning_star 0 [100] [102.2] [94] [102] (some 5),
             detect_evening_star 0 [100] [102.2] [94] [102] (some 5),
             detect_three_white_soldiers 0 [100] [102.2] [94] [102] (some 5),
             detect_three_black_crows 0 [100] [102.2] [94] [102] (some 5)]
          else []))) := by
  have hh : detect_hammer 0 [100] [102.2] [94] [102] (some 5) =
      .ok (some { pattern := "hammer", signal := "bullish", confidence := 90 }) := by
    decide
  have hs : detect_shooting_star 0 [100] [102.2] [94] [102] (some 5) = .ok none := by
    decide
  exact ⟨hh, hs, c8_scan_order.1 0 [100] [102.2] [94] [102] [500] (some 5) _ _ hh hs⟩

/-- An `Except` computation is ok exactly when it returned a value. -/
theorem exceptOk_iff {α : Type} (e : Except Unit α) :
    exceptOk e = true ↔ ∃ r, e = .ok r := by
  cases e with
  | error x => simp [exceptOk]
  | ok r => simp [exceptOk]

/-- Reading inside a list of positive rationals gives a positive value. -/
theorem getD_pos (xs : List ℚ) (i : ℕ) (hpos : ∀ x ∈ xs, 0 < x)
    (hi : i < xs.length) : 0 < xs.getD i 0 := by
  rw [List.getD_eq_getElem xs 0 hi]
  exact hpos _ (List.getElem_mem hi)

/-- The Hammer classifier never raises when the ATR is non-negative. -/
theorem detect_hammer_ok (idx : ℕ) (opens highs lows closes : List ℚ) (a : ℚ)
    (ha : 0 ≤ a) :
    exceptOk (detect_hammer idx opens highs lows closes (some a)) = true := by
  simp only [detect_hammer]
  split
  · rfl
  · split
    · rfl
    · rename_i hguard
      split
      · rename_i hcond
        have ha0 : a ≠ 0 := by
          intro h0
          exact hguard (Or.inr (Or.inr (by rw [h0])))
        have hbody : calculate_body_size (opens.getD idx 0) (closes.getD idx 0) ≠ 0 := by
          have h1 := hcond.2.2.1
          simp only [Option.getD_some] at h1
          intro h0
          rw [h0] at h1
          have : 0 < a := lt_of_le_of_ne ha (Ne.symm ha0)
          linarith
        rw [pydiv_ok_of _ _ hbody]
        rfl
      · rfl

/-- The Shooting Star classifier never raises when the ATR is non-negative. -/
theorem detect_shooting_star_ok (idx : ℕ) (opens highs lows closes : List ℚ) (a : ℚ)
    (ha : 0 ≤ a) :
    exceptOk (detect_shooting_star idx opens highs lows closes (some a)) = true := by
  simp only [detect_shooting_star]
  split
  · rfl
  · split
    · rfl
    · rename_i hguard
      split
      · rename_i hcond
        have ha0 : a ≠ 0 := by
          intro h0
          exact hguard (Or.inr (Or.inr (by rw [h0])))
        have hbody : calculate_body_size (opens.getD idx 0) (closes.getD idx 0) ≠ 0 := by
          have h1 := hcond.2.2.1
          simp only [Option.getD_some] at h1
          intro h0
          rw [h0] at h1
          have : 0 < a := lt_of_le_of_ne ha (Ne.symm ha0)
          linarith
        rw [pydiv_ok_of _ _ hbody]
        rfl
      · rfl

/-- The Hammer classifier returns nothing on undefined ATR. -/
theorem detect_hammer_none (idx : ℕ) (opens highs lows closes : List ℚ) :
    detect_hammer idx opens highs lows closes none = .ok none := by
  simp only [detect_hammer]
  split
  · rfl
  · rw [if_pos (Or.inr (Or.inl trivial))]

/-- The Shooting Star classifier returns nothing on undefined ATR. -/
theorem detect_shooting_star_none (idx : ℕ) (opens highs lows closes : List ℚ) :
    detect_shooting_star idx opens highs lows closes none = .ok none := by
  simp only [detect_shooting_star]
  split
  · rfl
  · rw [if_pos (Or.inr (Or.inl trivial))]

/-- One scanner index never raises for a well-defined non-negative ATR. -/
theorem scanDetectAt_ok (idx : ℕ) (opens highs lows closes volumes : List ℚ)
    (atr : Option ℚ) (ha : atr = none ∨ ∃ a, atr = some a ∧ 0 ≤ a) :
    exceptOk (scanDetectAt idx opens highs lows closes volumes atr) = true := by
  have hh : ∃ h, detect_hammer idx opens highs lows closes atr = .ok h := by
    rcases ha with h | ⟨a, ha1, ha2⟩
    · exact ⟨none, by rw [h]; exact detect_hammer_none idx opens highs lows closes⟩
    · rw [ha1]
      exact (exceptOk_iff _).mp (detect_hammer_ok idx opens highs lows closes a ha2)
  have hs : ∃ s, detect_shooting_star idx opens highs lows closes atr = .ok s := by
    rcases ha with h | ⟨a, ha1, ha2⟩
    · exact ⟨none, by rw [h]; exact detect_shooting_star_none idx opens highs lows closes⟩
    · rw [ha1]
      exact (exceptOk_iff _).mp (detect_shooting_star_ok idx opens highs lows closes a ha2)
  obtain ⟨h, hh⟩ := hh
  obtain ⟨s, hs⟩ := hs
  simp only [scanDetectAt, hh, hs]
  rfl

/-- The scanner loop never raises for a well-defined non-negative ATR. -/
theorem scanLoop_ok (opens highs lows closes volumes : List ℚ) (atr : Option ℚ)
    (dates : List String) (L : List ℕ)
    (ha : atr = none ∨ ∃ a, atr = some a ∧ 0 ≤ a) :
    exceptOk (scanLoop opens highs lows closes volumes atr dates L) = true := by
  induction L with
  | nil => rfl
  | cons i is ih =>
    obtain ⟨d, hd⟩ :=
      (exceptOk_iff _).mp (scanDetectAt_ok i opens highs lows closes volumes atr ha)
    obtain ⟨tail, htail⟩ := (exceptOk_iff _).mp ih
    simp only [scanLoop, hd, htail]
    cases d
    · rfl
    · split
      · rfl
      · split <;> rfl

/-- The seven-day scanner never raises for a well-defined non-negative ATR. -/
theorem scan_patterns_ok (opens highs lows closes volumes : List ℚ) (atr : Option ℚ)
    (dates : List String) (ha : atr = none ∨ ∃ a, atr = some a ∧ 0 ≤ a) :
    exceptOk (scan_patterns_last_7days opens highs lows closes volumes atr dates) =
      true := by
  simp only [scan_patterns_last_7days]
  split
  · rfl
  · obtain ⟨pats, hpats⟩ :=
      (exceptOk_iff _).mp (scanLoop_ok opens highs lows closes volumes atr dates _ ha)
    rw [hpats]
    rfl

/-- The right-rim search loop never raises for a non-zero left rim price. -/
theorem findRightRimAux_ok (highs : List ℚ) (lrp : ℚ) (hlrp : lrp ≠ 0) (L : List ℕ)
    (best : Option (ℕ × ℚ)) (bd : Option ℚ) :
    exceptOk (findRightRimAux highs lrp L best bd) = true := by
  induction L generalizing best bd with
  | nil => rfl
  | cons j js ih =>
    simp only [findRightRimAux, pydiv_ok_of _ _ hlrp]
    split
    · split
      · exact ih _ _
      · split
        · exact ih _ _
        · exact ih _ _
    · exact ih _ _

/-- The right-rim search never raises for a non-zero left rim price. -/
theorem findRightRim_ok (highs : List ℚ) (lrp : ℚ) (hlrp : lrp ≠ 0) (lo hi : ℕ) :
    exceptOk (findRightRim highs lrp lo hi) = true :=
  findRightRimAux_ok highs lrp hlrp _ none none

/-- The handle position check never raises for a handle window starting
inside the series at a positive close. -/
theorem validate_handle_position_ok (hs he : ℕ) (highs lows closes : List ℚ)
    (cbp crp : ℚ) (hse : hs < he) (hsl : hs < lows.length)
    (hsc : 0 < closes.getD hs 0) :
    exceptOk (validate_handle_position hs he highs lows closes cbp crp) = true := by
  obtain ⟨m, hm⟩ := pymin_ok _ (pyslice_ne_nil lows hs he hse hsl)
  simp only [validate_handle_position, hm]
  split
  · rfl
  · split
    · rfl
    · rw [pydiv_ok_of _ _ (ne_of_gt hsc)]
      split
      · rename_i heq
        exact absurd heq (by simp)
      · split <;> rfl

/-- The flag shape check never raises for a handle window starting inside the
series. -/
theorem detect_handle_flag_ok (highs lows closes : List ℚ) (hs he : ℕ)
    (cbp crp : ℚ) (h5 : hs + 5 ≤ he) (hsh : hs < highs.length)
    (hsl : hs < lows.length) :
    exceptOk (detect_handle_flag highs lows closes hs he cbp crp) = true := by
  have hne1 : pyslice highs hs he ≠ [] := pyslice_ne_nil _ _ _ (by omega) hsh
  have hne2 : pyslice lows hs he ≠ [] := pyslice_ne_nil _ _ _ (by omega) hsl
  have hl1 : ((pyslice highs hs he).length : ℚ) ≠ 0 := by
    rw [Nat.cast_ne_zero]
    intro h0
    exact hne1 (List.length_eq_zero.mp h0)
  have hl2 : ((pyslice lows hs he).length : ℚ) ≠ 0 := by
    rw [Nat.cast_ne_zero]
    intro h0
    exact hne2 (List.length_eq_zero.mp h0)
  simp only [detect_handle_flag]
  split
  · rfl
  · rw [pydiv_ok_of _ _ hl1, pydiv_ok_of _ _ hl2]
    split
    · rename_i heq
      exact absurd heq (by simp)
    · rename_i avgH heqH
      split
      · rename_i heq
        exact absurd heq (by simp)
      · rename_i avgL heqL
        rw [pydiv_ok_of _ _ hl1, pydiv_ok_of _ _ hl2]
        split
        · rename_i heq
          exact absurd heq (by simp)
        · split
          · rename_i heq
            exact absurd heq (by simp)
          · split <;> rfl

/-- The pennant shape check never raises for a handle window inside the
series. -/
theorem detect_handle_pennant_ok (highs lows closes : List ℚ) (hs he : ℕ)
    (cbp crp : ℚ) (h5 : hs + 5 ≤ he) (hhh : he ≤ highs.length)
    (hhl : he ≤ lows.length) :
    exceptOk (detect_handle_pennant highs lows closes hs he cbp crp) = true := by
  have hmid1 : hs < (hs + he) / 2 := by omega
  have hmid2 : (hs + he) / 2 < he := by omega
  obtain ⟨a1, ha1⟩ := pymax_ok (pyslice highs hs ((hs + he) / 2))
    (pyslice_ne_nil _ _ _ hmid1 (by omega))
  obtain ⟨a2, ha2⟩ := pymin_ok (pyslice lows hs ((hs + he) / 2))
    (pyslice_ne_nil _ _ _ hmid1 (by omega))
  obtain ⟨a3, ha3⟩ := pymax_ok (pyslice highs ((hs + he) / 2) he)
    (pyslice_ne_nil _ _ _ hmid2 (by omega))
  obtain ⟨a4, ha4⟩ := pymin_ok (pyslice lows ((hs + he) / 2) he)
    (pyslice_ne_nil _ _ _ hmid2 (by omega))
  simp only [detect_handle_pennant]
  split
  · rfl
  · rw [ha1, ha2, ha3, ha4]
    split
    · split
      · rfl
      · split <;> rfl
    all_goals simp_all

/-- The handle shape dispatch never raises for a handle window inside the
series. -/
theorem detect_handle_shape_ok (highs lows closes : List ℚ) (hs he : ℕ)
    (cbp crp : ℚ) (h5 : hs + 5 ≤ he) (hsh : hs < highs.length)
    (hsl : hs < lows.length) (hhh : he ≤ highs.length) (hhl : he ≤ lows.length) :
    exceptOk (detect_handle_shape highs lows closes hs he cbp crp) = true := by
  simp only [detect_handle_shape]
  split
  · rfl
  · obtain ⟨f, hf⟩ := (exceptOk_iff _).mp
      (detect_handle_flag_ok highs lows closes hs he cbp crp h5 hsh hsl)
    rw [hf]
    cases f
    · exact detect_handle_pennant_ok highs lows closes hs he cbp crp h5 hhh hhl
    · rfl

/-- The handle-length loop body never raises for a handle window inside a
series with positive closes. -/
theorem handleLoopBody_ok (highs lows closes volumes : List ℚ) (dates : List String)
    (l rr : ℕ) (lrp cbp depth : ℚ) (he : ℕ)
    (h5 : rr + 5 ≤ he) (hheN : he ≤ closes.length)
    (hH : highs.length = closes.length) (hL : lows.length = closes.length)
    (hposc : ∀ x ∈ closes, 0 < x) :
    exceptOk (handleLoopBody highs lows closes volumes dates l rr lrp cbp depth he) =
      true := by
  have hrrN : rr < closes.length := by omega
  obtain ⟨b, hb⟩ := (exceptOk_iff _).mp (validate_handle_position_ok rr he highs lows
    closes cbp lrp (by omega) (by omega) (getD_pos closes rr hposc hrrN))
  simp only [handleLoopBody, hb]
  cases b
  · rfl
  · obtain ⟨sh, hsh⟩ := (exceptOk_iff _).mp (detect_handle_shape_ok highs lows closes
      rr he cbp lrp h5 (by omega) (by omega) (by omega) (by omega))
    rw [hsh]
    split
    · rename_i heq
      exact absurd heq (by simp)
    · rfl
    · split
      · rename_i heq
        exact absurd heq (by simp)
      · rfl
      · split
        · rfl
        · obtain ⟨m1, hm1⟩ := pymax_ok (pyslice highs rr he)
            (pyslice_ne_nil _ _ _ (by omega) (by omega))
          obtain ⟨m2, hm2⟩ := pymin_ok (pyslice lows rr he)
            (pyslice_ne_nil _ _ _ (by omega) (by omega))
          rw [hm1, hm2]
          split
          · simp_all
          · simp_all
          · split <;> rfl

/-- The bottom-search loop body never raises for a positive left rim price
when highs, lows and closes have equal lengths and closes are positive. -/
theorem bottomSearchBody_ok (highs lows closes volumes : List ℚ) (dates : List String)
    (l : ℕ) (lrp : ℚ) (bse : ℕ) (hlrp : 0 < lrp)
    (hH : highs.length = closes.length) (hL : lows.length = closes.length)
    (hposc : ∀ x ∈ closes, 0 < x) :
    exceptOk (bottomSearchBody highs lows closes volumes dates l lrp bse) = true := by
  simp only [bottomSearchBody]
  split
  · rfl
  · split
    · rfl
    · rename_i hmi off cbp hoff
      rw [pydiv_ok_of _ _ (ne_of_gt hlrp)]
      split
      · rename_i heq
        exact absurd heq (by simp)
      · rename_i d0 hd0
        split
        · rfl
        · split
          · rfl
          · obtain ⟨ro, hro⟩ := (exceptOk_iff _).mp
              (findRightRim_ok highs lrp (ne_of_gt hlrp) _ _)
            rw [hro]
            cases ro with
            | none => rfl
            | some pr =>
              obtain ⟨rr, rrp⟩ := pr
              split
              · rename_i heq
                exact absurd heq (by simp)
              · rfl
              · rename_i rr2 rrp2 heq
                split
                · rfl
                · split
                  · rfl
                  · obtain ⟨r, hr⟩ := firstSomeE_ok
                      (handleLoopBody highs lows closes volumes dates l rr2 lrp cbp
                        (d0 * 100))
                      (List.range' (rr2 + 5)
                        (min (rr2 + 25) closes.length + 1 - (rr2 + 5)))
                      (fun he hhe => by
                        rw [List.mem_range'_1] at hhe
                        have hmin : min (rr2 + 25) closes.length ≤ closes.length :=
                          min_le_right _ _
                        exact (exceptOk_iff _).mp (handleLoopBody_ok highs lows closes
                          volumes dates l rr2 lrp cbp (d0 * 100) he (by omega)
                          (by omega) hH hL hposc))
                    rw [hr]
                    rfl

/-- The left-rim loop body never raises for a left rim inside a series with
positive highs and closes and equal lengths. -/
theorem leftRimBody_ok (highs lows closes volumes : List ℚ) (dates : List String)
    (l : ℕ) (hl : l < highs.length)
    (hH : highs.length = closes.length) (hL : lows.length = closes.length)
    (hposh : ∀ x ∈ highs, 0 < x) (hposc : ∀ x ∈ closes, 0 < x) :
    exceptOk (leftRimBody highs lows closes volumes dates l) = true := by
  obtain ⟨m, hm⟩ := pymax_ok (pyslice highs (l - 5) (min highs.length (l + 6)))
    (pyslice_ne_nil _ _ _ (by omega) (by omega))
  simp only [leftRimBody, hm]
  split
  · rfl
  · obtain ⟨r, hr⟩ := firstSomeE_ok _ _ (fun bse hbse =>
      (exceptOk_iff _).mp (bottomSearchBody_ok highs lows closes volumes dates l
        (highs.getD l 0) bse (getD_pos highs l hposh hl) hH hL hposc))
    rw [hr]
    rfl

/-- The cup-and-handle detector never raises when highs, lows and closes have
equal lengths and the highs and closes are positive. -/
theorem detect_cup_ok (opens highs lows closes volumes : List ℚ) (dates : List String)
    (hH : highs.length = closes.length) (hL : lows.length = closes.length)
    (hposh : ∀ x ∈ highs, 0 < x) (hposc : ∀ x ∈ closes, 0 < x) :
    exceptOk (detect_cup_and_handle opens highs lows closes volumes dates) = true := by
  simp only [detect_cup_and_handle]
  split
  · rfl
  · rename_i hlen
    obtain ⟨r, hr⟩ := firstSomeE_ok (leftRimBody highs lows closes volumes dates)
      (pyRangeDown (closes.length - 35)
        (closes.length - min 300 (closes.length - 35) - 1))
      (fun l hl => by
        have hb := mem_pyRangeDown _ _ _ hl
        exact (exceptOk_iff _).mp (leftRimBody_ok highs lows closes volumes dates l
          (by omega) hH hL hposh hposc))
    rw [hr]
    rfl

set_option maxRecDepth 100000 in
/-- C2 counterexample: a zero-body candle passing every Hammer criterion
under ATR −1 makes `detect_hammer` raise `ZeroDivisionError` instead of
returning nothing, the 7-day scanner propagates the same exception, and on
all-zero prices the cup-and-handle detector raises on the depth division. -/
theorem c2_no_exceptions_cex :
    detect_hammer 0 [100] [100] [90] [100] (some (-1)) = .error () ∧
    exceptOk (scan_patterns_last_7days (List.replicate 8 100) (List.replicate 8 100)
      (List.replicate 8 90) (List.replicate 8 100) (List.replicate 8 0) (some (-1))
      []) = false ∧
    detect_cup_and_handle (List.replicate 71 0) (List.replicate 71 0)
      (List.replicate 71 0) (List.replicate 71 0) (List.replicate 71 0) [] =
      .error () := by
  refine ⟨by decide, by decide, by decide⟩

/-- C2 (amended): for inputs within the engine's contract — any index, an
ATR that is non-negative or undefined, and (for the cup detector)
equal-length arrays with positive highs and closes — no classifier, the
7-day scanner, or the cup-and-handle detector raises an exception; any
division by a zero range or a zero or undefined ATR makes the classifier
return nothing instead of raising. -/
theorem c2_no_exceptions :
    (∀ (idx : ℕ) (opens highs lows closes : List ℚ) (a : ℚ), 0 ≤ a →
      exceptOk (detect_hammer idx opens highs lows closes (some a)) = true ∧
      exceptOk (detect_shooting_star idx opens highs lows closes (some a)) = true) ∧
    (∀ (idx : ℕ) (opens highs lows closes : List ℚ) (atr : Option ℚ),
      highs.getD idx 0 - lows.getD idx 0 = 0 ∨ atr = none ∨ atr = some 0 →
      detect_hammer idx opens highs lows closes atr = .ok none ∧
      detect_shooting_star idx opens highs lows closes atr = .ok none) ∧
    (∀ (opens highs lows closes volumes : List ℚ) (atr : Option ℚ)
      (dates : List String), (atr = none ∨ ∃ a, atr = some a ∧ 0 ≤ a) →
      exceptOk (scan_patterns_last_7days opens highs lows closes volumes atr dates) =
        true) ∧
    (∀ (opens highs lows closes volumes : List ℚ) (dates : List String),
      highs.length = closes.length → lows.length = closes.length →
      (∀ x ∈ highs, 0 < x) → (∀ x ∈ closes, 0 < x) →
      exceptOk (detect_cup_and_handle opens highs lows closes volumes dates) =
        true) := by
  refine ⟨?_, ?_, ?_, ?_⟩
  · intro idx opens highs lows closes a ha
    exact ⟨detect_hammer_ok idx opens highs lows closes a ha,
           detect_shooting_star_ok idx opens highs lows closes a ha⟩
  · intro idx opens highs lows closes atr h
    constructor
    · simp only [detect_hammer]
      split
      · rfl
      · rfl
    · simp only [detect_shooting_star]
      split
      · rfl
      · rfl
  · intro opens highs lows closes volumes atr dates ha
    exact scan_patterns_ok opens highs lows closes volumes atr dates ha
  · intro opens highs lows closes volumes dates hH hL hph hpc
    exact detect_cup_ok opens highs lows closes volumes dates hH hL hph hpc

set_option maxRecDepth 100000 in
/-- Witness for C2 at concrete inputs: the Hammer classifier and the
cup-and-handle detector return normally on contract-conforming data. -/
theorem c2_no_exceptions_witness :
    (0 : ℚ) ≤ 5 ∧
    exceptOk (detect_hammer 0 [100] [102.2] [94] [102] (some 5)) = true ∧
    exceptOk (detect_cup_and_handle [] cupHighsA cupLowsA cupClosesA cupVolumesA []) =
      true := by
  refine ⟨by decide, (c2_no_exceptions.1 0 [100] [102.2] [94] [102] 5 (by decide)).1, ?_⟩
  exact c2_no_exceptions.2.2.2 [] cupHighsA cupLowsA cupClosesA cupVolumesA []
    (by decide) (by decide) (by decide) (by decide)
